import Mathlib

/-!
Verification of the annotation engine of this repository.

Shallow embedding conventions:
* JS numbers are modelled as exact rationals (`ℚ`); a value that is absent,
  `null`, `NaN` or `Infinity` at a point where the source checks
  `Number.isFinite` / uses `??` is modelled as `Option.none`.
* `Date.now()` and the `crypto.randomUUID` generator are nondeterministic in
  the source; they are threaded as explicit parameters (`now : Nat`,
  `fresh : Nat → String`).
* `JSON.parse(JSON.stringify(x))` deep copies are the identity on the pure
  values modelled here.
* JS `Map` and plain-object records are modelled as insertion-ordered
  association lists with set-in-place update, matching JS iteration order.
* Names ending in the word `Annotation` are shortened to `Annot` (the full
  source names appear in each doc comment).
-/

namespace Inkwell

/-- The source's `category` union type (`"profile" | "model" | "ocr"`,
from `types/annotation.ts`). -/
inductive Cat where
  | profile
  | model
  | ocr
deriving DecidableEq, Repr

/-- The source's `Mode` union type (`"viewport" | "model" | "ocr"`). -/
inductive Mode where
  | viewport
  | model
  | ocr
deriving DecidableEq, Repr

/-- The `Annotation` record of `types/annotation.ts`.  Optional fields are
`Option`s; coordinates are image-space rationals. -/
structure Annot where
  id : String
  label : Option String
  color : String
  x : ℚ
  y : ℚ
  w : ℚ
  h : ℚ
  createdAt : Nat
  updatedAt : Nat
  parentId : Option String
  category : Option Cat
  ocrLabel : Option String
deriving DecidableEq, Repr

/-- The `Transform` record of `types/annotation.ts`. -/
structure Transform where
  scale : ℚ
  translateX : ℚ
  translateY : ℚ
deriving DecidableEq, Repr

/-- The `HistoryEntry` record of `types/annotation.ts`. -/
structure HistEntry where
  annotations : List Annot
  timestamp : Nat
deriving DecidableEq, Repr

/-- A 2-d point (the `{x, y}` pairs used by the viewer component). -/
structure Pt where
  x : ℚ
  y : ℚ
deriving DecidableEq, Repr

/-- One entry of the static label catalogs (`LABEL_CONFIG` etc. in
`store/annotationStore.ts`). -/
structure LabelEntry where
  id : String
  name : String
  color : String
  shortcut : String
deriving DecidableEq, Repr

/-- `LABEL_CONFIG` (model labels) from `store/annotationStore.ts`. -/
def LABEL_CONFIG : List LabelEntry :=
  [ ⟨"model0", "T1", "rgb(59, 130, 246)", "0"⟩,
    ⟨"model1", "T2", "rgb(16, 185, 129)", "1"⟩,
    ⟨"model2", "S15", "rgb(249, 115, 22)", "2"⟩,
    ⟨"model3", "VerticalBars", "rgb(239, 68, 68)", "3"⟩,
    ⟨"model4", "HorizontalBars", "rgb(168, 85, 247)", "4"⟩,
    ⟨"model5", "T3", "rgb(236, 72, 153)", "5"⟩,
    ⟨"model6", "T4", "rgb(34, 197, 94)", "6"⟩,
    ⟨"model7", "S20", "rgb(251, 146, 60)", "7"⟩,
    ⟨"model8", "S25", "rgb(139, 92, 246)", "8"⟩ ]

/-- `OCR_LABEL_CONFIG` from `store/annotationStore.ts`. -/
def OCR_LABEL_CONFIG : List LabelEntry :=
  [ ⟨"ocr0", "Sheetno", "rgb(59, 130, 246)", "0"⟩,
    ⟨"ocr1", "Detailno", "rgb(16, 185, 129)", "1"⟩,
    ⟨"ocr2", "Scale", "rgb(249, 115, 22)", "2"⟩,
    ⟨"ocr3", "Title", "rgb(239, 68, 68)", "3"⟩,
    ⟨"ocr4", "Date", "rgb(168, 85, 247)", "4"⟩,
    ⟨"ocr5", "Revision", "rgb(236, 72, 153)", "5"⟩,
    ⟨"ocr6", "Project", "rgb(34, 197, 94)", "6"⟩,
    ⟨"ocr7", "Drawing", "rgb(251, 146, 60)", "7"⟩,
    ⟨"ocr8", "Note", "rgb(139, 92, 246)", "8"⟩ ]

/-- `PROFILE_LABEL_CONFIG` from `store/annotationStore.ts`. -/
def PROFILE_LABEL_CONFIG : List LabelEntry :=
  [ ⟨"profile0", "Column Schedule", "rgb(59, 130, 246)", "0"⟩,
    ⟨"profile1", "Column Section", "rgb(16, 185, 129)", "1"⟩,
    ⟨"profile2", "Wall Schedule", "rgb(249, 115, 22)", "2"⟩,
    ⟨"profile3", "Beam Schedule", "rgb(239, 68, 68)", "3"⟩,
    ⟨"profile4", "Slab Schedule", "rgb(168, 85, 247)", "4"⟩,
    ⟨"profile5", "Foundation Schedule", "rgb(236, 72, 153)", "5"⟩,
    ⟨"profile6", "Detail Section", "rgb(34, 197, 94)", "6"⟩,
    ⟨"profile7", "Elevation", "rgb(251, 146, 60)", "7"⟩,
    ⟨"profile8", "Plan View", "rgb(139, 92, 246)", "8"⟩ ]

/-- `DEFAULT_COLORS` from `store/annotationStore.ts`. -/
def DEFAULT_COLORS : List String :=
  [ "rgb(59, 130, 246)", "rgb(16, 185, 129)", "rgb(249, 115, 22)",
    "rgb(239, 68, 68)", "rgb(168, 85, 247)", "rgb(236, 72, 153)" ]

/-- `getNextColor` from `store/annotationStore.ts`; the mutable module-level
`colorIndex` counter is threaded explicitly and returned advanced by one. -/
def getNextColor (colorIdx : Nat) : String × Nat :=
  (DEFAULT_COLORS.getD (colorIdx % DEFAULT_COLORS.length) "", colorIdx + 1)

/-- JS string falsiness for optional strings: absent (`undefined`/`null`) or
the empty string. -/
def strFalsy : Option String → Bool
  | none => true
  | some s => s = ""

/-- `isProfileAnnotation` from `store/annotationStore.ts` (and the identical
`isProfileLabel` callback in the viewer): true iff the label is truthy and
occurs in `PROFILE_LABEL_CONFIG` by name. -/
def isProfileAnnot (ann : Annot) : Bool :=
  if strFalsy ann.label then false
  else PROFILE_LABEL_CONFIG.any (fun entry => some entry.name = ann.label)

/-- `isAnnotationInsideProfile` from `store/annotationStore.ts` (also
`isRectInside` in the viewer source): full geometric containment of the
first rectangle in the second. -/
def isAnnotInsideProfile (ann profile : Annot) : Bool :=
  decide (profile.x ≤ ann.x ∧ profile.y ≤ ann.y ∧
    ann.x + ann.w ≤ profile.x + profile.w ∧
    ann.y + ann.h ≤ profile.y + profile.h)

/-!  ## Profile linking / reconciliation (viewer component, `src/unnamed/part_001`)  -/

/-- `isProfileLabelName` from the viewer: truthy label occurring in
`PROFILE_LABEL_CONFIG`. -/
def isProfileLabelName (label : Option String) : Bool :=
  if strFalsy label then false
  else PROFILE_LABEL_CONFIG.any (fun entry => some entry.name = label)

/-- `isProfileAnnotationShape` from the viewer (shortened name): category
`profile`, or a profile label. -/
def isProfileAnnotShape (ann : Annot) : Bool :=
  if ann.category = some Cat.profile then true
  else isProfileLabelName ann.label

/-- `linkAnnotationsToProfiles` from the viewer: for every non-profile
element, look up the first profile (in list order) fully containing it
(`isRectInside`, embedded here as `isAnnotInsideProfile`) and set `parentId`
to its id (or clear it when none contains it); returns the original
collection when there are no profiles or nothing changed. -/
def linkAnnotationsToProfiles (annotations : List Annot) : List Annot :=
  let profiles := annotations.filter isProfileAnnotShape
  if profiles.isEmpty then annotations
  else
    let updated := annotations.map (fun ann =>
      if isProfileAnnotShape ann then ann
      else
        let containingProfile := profiles.find? (fun profile => isAnnotInsideProfile ann profile)
        let nextParentId := containingProfile.map (fun p => p.id)
        if nextParentId = ann.parentId then ann
        else { ann with parentId := nextParentId })
    if updated = annotations then annotations else updated

/-- The effective parent `linkAnnotationsToProfiles` computes for `ann`: the
id of the first profile in `annotations` fully containing it, if any. -/
def profileParentFor (annotations : List Annot) (ann : Annot) : Option String :=
  ((annotations.filter isProfileAnnotShape).find?
    (fun profile => isAnnotInsideProfile ann profile)).map (fun p => p.id)

/-- The per-element action of `linkAnnotationsToProfiles`. -/
def relinkOne (annotations : List Annot) (ann : Annot) : Annot :=
  if isProfileAnnotShape ann then ann
  else { ann with parentId := profileParentFor annotations ann }

/-- A non-profile box far outside every profile, carrying a stale
`parentId = "zzz"`. -/
def c7A : Annot :=
  ⟨"A2", some "T1", "rgb(59, 130, 246)", 500, 500, 10, 10, 0, 0, some "zzz",
    some Cat.model, none⟩

/-!  ## The Transform Engine (viewer component, `src/unnamed/part_001`)  -/

/-- `screenToImage(screenX, screenY)` from the viewer: add the scroll offset
to get the full-canvas position, then invert the affine transform. -/
def screenToImage (t : Transform) (scrollLeft scrollTop : ℚ) (screenX screenY : ℚ) : Pt :=
  let canvasX := screenX + scrollLeft
  let canvasY := screenY + scrollTop
  { x := (canvasX - t.translateX) / t.scale,
    y := (canvasY - t.translateY) / t.scale }

/-- `imageToScreen(imageX, imageY)` from the viewer: apply the affine
transform, then subtract the scroll offset. -/
def imageToScreen (t : Transform) (scrollLeft scrollTop : ℚ) (imageX imageY : ℚ) : Pt :=
  let canvasX := imageX * t.scale + t.translateX
  let canvasY := imageY * t.scale + t.translateY
  { x := canvasX - scrollLeft, y := canvasY - scrollTop }

/-- `MIN_ZOOM` from the viewer (0.05). -/
def MIN_ZOOM : ℚ := 1 / 20

/-- `MAX_ZOOM` from the viewer (8). -/
def MAX_ZOOM : ℚ := 8

/-- `zoomAt(clientX, clientY, delta)` from the viewer, with
`x = clientX - rect.left` / `y = clientY - rect.top` (the cursor position
relative to the visible canvas) taken as inputs.  Returns the new transform
passed to `store.setTransform`; the deferred scrollbar adjustment scheduled
via `requestAnimationFrame` is a separate viewport side effect and is not
part of the returned transform. -/
def zoomAt (t : Transform) (scrollLeft scrollTop : ℚ) (x y : ℚ) (delta : ℚ) : Transform :=
  let scrollX := x + scrollLeft
  let scrollY := y + scrollTop
  let imagePointX := (scrollX - t.translateX) / t.scale
  let imagePointY := (scrollY - t.translateY) / t.scale
  let factor : ℚ := if delta > 0 then 11 / 10 else 9 / 10
  let newScale := max MIN_ZOOM (min MAX_ZOOM (t.scale * factor))
  { scale := newScale,
    translateX := scrollX - imagePointX * newScale,
    translateY := scrollY - imagePointY * newScale }

/-!  ## The Annotation Store (`store/annotationStore.ts`)  -/

/-- The slice of the zustand store state that the verified operations read
and write: the active and pending sets, the selection (a JS `Set<string>`,
modelled as its insertion-ordered duplicate-free element list), the bounded
history with its pointer (`historyIndex` starts at `-1`, hence `Int`), and
the drawing mode. -/
structure StoreState where
  annotations : List Annot
  pendingAnnotations : List Annot
  selectedIds : List String
  history : List HistEntry
  historyIndex : Int
  mode : Mode
deriving DecidableEq, Repr

/-- `saveHistory` from `store/annotationStore.ts`: truncate the redo branch
(`slice(0, historyIndex + 1)`), push a deep copy of the active set with a
timestamp, drop the oldest entry beyond 50, and point at the new top. -/
def saveHistory (now : Nat) (s : StoreState) : StoreState :=
  let newHistory := s.history.take (s.historyIndex + 1).toNat ++ [⟨s.annotations, now⟩]
  let newHistory := if newHistory.length > 50 then newHistory.drop 1 else newHistory
  { s with history := newHistory, historyIndex := (newHistory.length : Int) - 1 }

/-- The all-zero history entry standing for the out-of-bounds array access
`state.history[i]` (never reached behind the source's boundary guards). -/
def emptyEntry : HistEntry := ⟨[], 0⟩

/-- `undo` from `store/annotationStore.ts`: no-op at the lower boundary,
otherwise step the pointer down and load a deep copy of that entry. -/
def undo (s : StoreState) : StoreState :=
  if s.historyIndex ≤ 0 then s
  else
    let newIndex := s.historyIndex - 1
    { s with annotations := (s.history.getD newIndex.toNat emptyEntry).annotations,
             historyIndex := newIndex }

/-- `redo` from `store/annotationStore.ts`: no-op at the upper boundary,
otherwise step the pointer up and load a deep copy of that entry. -/
def redo (s : StoreState) : StoreState :=
  if (s.history.length : Int) - 1 ≤ s.historyIndex then s
  else
    let newIndex := s.historyIndex + 1
    { s with annotations := (s.history.getD newIndex.toNat emptyEntry).annotations,
             historyIndex := newIndex }

/-- A `Partial<Annotation>` object: a field is `some v` when the key is
present with value `v` (for the optional fields, `some none` models a key
explicitly present as `undefined`, which a JS spread does copy). -/
structure AnnotPatch where
  id : Option String := none
  label : Option (Option String) := none
  color : Option String := none
  x : Option ℚ := none
  y : Option ℚ := none
  w : Option ℚ := none
  h : Option ℚ := none
  createdAt : Option Nat := none
  updatedAt : Option Nat := none
  parentId : Option (Option String) := none
  category : Option (Option Cat) := none
  ocrLabel : Option (Option String) := none
deriving DecidableEq, Repr

/-- The spread `{ ...ann, ...updates, updatedAt: Date.now() }` used by
`updateAnnotation`: patch fields override, then `updatedAt` is forced. -/
def applyPatch (p : AnnotPatch) (now : Nat) (a : Annot) : Annot :=
  { id := p.id.getD a.id,
    label := p.label.getD a.label,
    color := p.color.getD a.color,
    x := p.x.getD a.x,
    y := p.y.getD a.y,
    w := p.w.getD a.w,
    h := p.h.getD a.h,
    createdAt := p.createdAt.getD a.createdAt,
    updatedAt := now,
    parentId := p.parentId.getD a.parentId,
    category := p.category.getD a.category,
    ocrLabel := p.ocrLabel.getD a.ocrLabel }

/-- The map `updateAnnotation` performs over the active set: patch the
matching id, leave the rest. -/
def updStep (now : Nat) (id : String) (p : AnnotPatch) (anns : List Annot) : List Annot :=
  anns.map (fun ann => if ann.id = id then applyPatch p now ann else ann)

/-- `updateAnnotation(id, updates)` from `store/annotationStore.ts`
(shortened name; the store's mutating actions call `saveHistory` right after
the set; the deferred `saveToLocalStorage` is an external side effect). -/
def updateAnnot (now : Nat) (id : String) (p : AnnotPatch) (s : StoreState) : StoreState :=
  saveHistory now { s with annotations := updStep now id p s.annotations }

/-- The `filterChildren` closure inside `deleteAnnotation`: keep `ann` iff
its `parentId` (when present) differs from the deleted profile's id, or
(when absent) it is not fully contained in the profile. -/
def cascadeKeep (t ann : Annot) : Bool :=
  match ann.parentId with
  | some pid => ¬(pid = t.id)
  | none => ¬(isAnnotInsideProfile ann t = true)

/-- `deleteAnnotation(id)` from `store/annotationStore.ts` (shortened name).
When the target is profile-labeled it cascades: children matched by
`parentId === target.id`, or — only when `parentId` is absent — by full
containment, are dropped from both the active and the pending set, and the
ids of the removed *loaded* children (plus the target id) are purged from
the selection. -/
def deleteAnnot (now : Nat) (id : String) (s : StoreState) : StoreState :=
  let target := s.annotations.find? (fun ann => ann.id = id)
  let remaining := s.annotations.filter (fun ann => ¬(ann.id = id))
  match target with
  | some t =>
    if isProfileAnnot t then
      let removedLoadedChildren := remaining.filter (fun ann => ¬(cascadeKeep t ann = true))
      let remainingPending := s.pendingAnnotations.filter (cascadeKeep t)
      let filteredLoaded := remaining.filter (cascadeKeep t)
      let newSelected := s.selectedIds.filter (fun sid =>
        ¬(sid = id) ∧ ¬(removedLoadedChildren.any (fun ann => ann.id = sid) = true))
      saveHistory now
        { s with annotations := filteredLoaded,
                 pendingAnnotations := remainingPending,
                 selectedIds := newSelected }
    else
      saveHistory now
        { s with annotations := remaining,
                 selectedIds := s.selectedIds.filter (fun sid => ¬(sid = id)) }
  | none =>
      saveHistory now
        { s with annotations := remaining,
                 selectedIds := s.selectedIds.filter (fun sid => ¬(sid = id)) }

/-!  ## Marquee selection (`handleMouseUp` in the viewer, select tool)  -/

/-- The ids the marquee pass collects: annotations whose entire projected
screen-space bounding box lies inside the rectangle spanned by the drag
start and the current pointer. -/
def marqueeInsideIds (annotations : List Annot) (t : Transform) (sl st : ℚ)
    (startP endP : Pt) : List String :=
  (annotations.filter (fun ann =>
    decide (min startP.x endP.x ≤ (imageToScreen t sl st ann.x ann.y).x ∧
      (imageToScreen t sl st (ann.x + ann.w) (ann.y + ann.h)).x ≤ max startP.x endP.x ∧
      min startP.y endP.y ≤ (imageToScreen t sl st ann.x ann.y).y ∧
      (imageToScreen t sl st (ann.x + ann.w) (ann.y + ann.h)).y ≤ max startP.y endP.y))).map
    (fun ann => ann.id)

/-- The per-id profile test used in the marquee branch: look the id up in
the active set and test its label against the profile catalog. -/
def marqueeIsProf (annotations : List Annot) (i : String) : Bool :=
  match annotations.find? (fun ann => ann.id = i) with
  | some ann => isProfileLabelName ann.label
  | none => false

/-- The marquee branch of `handleMouseUp` (select tool, drag finished):
computes the fully-contained id set; when nonempty it replaces the
selection (in viewport mode collapsing to the last profile id when any
profile is in the set); when empty it leaves the previous selection. -/
def marqueeSelect (mode : Mode) (annotations : List Annot) (t : Transform) (sl st : ℚ)
    (startP endP : Pt) (prevSelected : List String) : List String :=
  let selected := marqueeInsideIds annotations t sl st startP endP
  if 0 < selected.length then
    if mode = Mode.viewport then
      if selected.any (marqueeIsProf annotations) then
        match selected.reverse.find? (marqueeIsProf annotations) with
        | some lastProfileId => [lastProfileId]
        | none => selected
      else selected
    else selected
  else prevSelected

/-- A model-category box at (0,0) sized 10×10 used in the marquee scenarios. -/
def c8A : Annot := ⟨"A", some "T1", "rgb(59, 130, 246)", 0, 0, 10, 10, 0, 0, none, some Cat.model, none⟩

/-!  ## Input boundaries: UUIDs, local add, CSV bulk conversion  -/

/-- Hex-digit test for the UUID pattern `[0-9a-fA-F]`. -/
def isHexDigit (c : Char) : Bool :=
  c.isDigit || ('a' ≤ c && c ≤ 'f') || ('A' ≤ c && c ≤ 'F')

/-- Positional character test for `UUID_REGEX` from `store/annotationStore.ts`:
hyphens at 8/13/18/23, version digit `[1-5]` at 14, variant `[89abAB]` at 19,
hex elsewhere. -/
def uuidCharOk (i : Nat) (c : Char) : Bool :=
  if i = 8 ∨ i = 13 ∨ i = 18 ∨ i = 23 then c = '-'
  else if i = 14 then '1' ≤ c && c ≤ '5'
  else if i = 19 then c = '8' || c = '9' || c = 'a' || c = 'b' || c = 'A' || c = 'B'
  else isHexDigit c

/-- `UUID_REGEX.test` from `store/annotationStore.ts`. -/
def uuidTest (s : String) : Bool :=
  s.toList.length = 36 && s.toList.enum.all (fun p => uuidCharOk p.1 p.2)

/-- `ensureUuid` from `store/annotationStore.ts`: keep a valid UUID, replace
anything else by a generated one (`generateUuid` is nondeterministic, so the
generated value is the explicit `fresh` parameter). -/
def ensureUuid (fresh : String) (value : Option String) : String :=
  match value with
  | some v => if uuidTest v then v else fresh
  | none => fresh

/-- `inferCategoryFromLabel` from `store/annotationStore.ts`: match the
(truthy) label against the profile, model, then OCR catalogs. -/
def inferCategoryFromLabel (label : Option String) : Option Cat :=
  match label with
  | none => none
  | some l =>
    if l = "" then none
    else if PROFILE_LABEL_CONFIG.any (fun e => e.name = l) then some Cat.profile
    else if LABEL_CONFIG.any (fun e => e.name = l) then some Cat.model
    else if OCR_LABEL_CONFIG.any (fun e => e.name = l) then some Cat.ocr
    else none

/-- `addAnnotation` from `store/annotationStore.ts` (shortened name): infer
the category from the current mode when absent (the source's final
`inferCategoryFromLabel` fallback is unreachable, the three modes are
exhaustive), regenerate an invalid id, append, snapshot.  No geometry
validation of any kind is performed. -/
def addAnnot (now : Nat) (fresh : String) (a : Annot) (s : StoreState) : StoreState :=
  let category :=
    match a.category with
    | some c => some c
    | none =>
      match s.mode with
      | Mode.viewport => some Cat.profile
      | Mode.model => some Cat.model
      | Mode.ocr => some Cat.ocr
  saveHistory now
    { s with annotations :=
        s.annotations ++ [{ a with id := ensureUuid fresh (some a.id), category := category }] }

/-- A `ParsedCsvRow` from the viewer source, with the coordinate aliases the
converter probes.  A numeric field holds the finite `parseFloat` result;
`none` models a missing or non-numeric (`NaN`) cell. -/
structure CsvRow where
  class_id : Option String := none
  classId : Option String := none
  label : Option String := none
  x_min : Option ℚ := none
  xMin : Option ℚ := none
  left : Option ℚ := none
  x1 : Option ℚ := none
  y_min : Option ℚ := none
  yMin : Option ℚ := none
  top : Option ℚ := none
  y1 : Option ℚ := none
  x_max : Option ℚ := none
  xMax : Option ℚ := none
  right : Option ℚ := none
  x2 : Option ℚ := none
  y_max : Option ℚ := none
  yMax : Option ℚ := none
  bottom : Option ℚ := none
  y2 : Option ℚ := none
deriving DecidableEq, Repr

/-- `DefaultAssetConfig`'s class-map part used by the label resolvers. -/
structure AssetMeta where
  modelClassMap : List (String × String) := []
  profileClassMap : List (String × String) := []
deriving DecidableEq, Repr

/-- String-keyed lookup in a class map (`meta?.map?.[classId]`). -/
def lookupStr (m : List (String × String)) (k : String) : Option String :=
  (m.find? (fun p => p.1 = k)).map (fun p => p.2)

/-- Decimal value of a leading digit run, if nonempty. -/
def digitsVal (cs : List Char) : Option Nat :=
  let ds := cs.takeWhile Char.isDigit
  if ds.isEmpty then none
  else some (ds.foldl (fun acc c => acc * 10 + (c.toNat - '0'.toNat)) 0)

/-- `Number.parseInt(s, 10)`: optional sign then leading decimal digits;
`none` models `NaN`.  (The source's whitespace skipping is not needed by
the callers modelled here.) -/
def jsParseInt (s : String) : Option Int :=
  match s.toList with
  | '-' :: rest => (digitsVal rest).map (fun n => -(n : Int))
  | '+' :: rest => (digitsVal rest).map (fun n => (n : Int))
  | cs => (digitsVal cs).map (fun n => (n : Int))

/-- `resolveModelLabel` from the viewer: class-map hit, else the numeric
class id modulo the model catalog length (JS `%` is truncating, hence
`Int.tmod`), else the first model label. -/
def resolveModelLabel (classId : String) (meta : Option AssetMeta) : String :=
  let fallback :=
    match jsParseInt classId with
    | some n =>
      (LABEL_CONFIG.getD (((n.tmod 9) + 9).tmod 9).toNat ⟨"", "", "", ""⟩).name
    | none => (LABEL_CONFIG.getD 0 ⟨"", "", "", ""⟩).name
  match meta with
  | some m =>
    match lookupStr m.modelClassMap classId with
    | some l => if l = "" then fallback else l
    | none => fallback
  | none => fallback

/-- `resolveProfileLabel` from the viewer: class-map hit, else the profile
catalog cycled by the running profile sequence number. -/
def resolveProfileLabel (classId : String) (meta : Option AssetMeta) (sequence : Nat) : String :=
  let fallback := (PROFILE_LABEL_CONFIG.getD (sequence % 9) ⟨"", "", "", ""⟩).name
  match meta with
  | some m =>
    match lookupStr m.profileClassMap classId with
    | some l => if l = "" then fallback else l
    | none => fallback
  | none => fallback

/-- `resolveCategoryColor` from the viewer: catalog color by label name, or
the next round-robin default color (counter threaded). -/
def resolveCategoryColor (label : String) (category : Cat) (colorIdx : Nat) : String × Nat :=
  if category = Cat.profile then
    match PROFILE_LABEL_CONFIG.find? (fun e => e.name = label) with
    | some e => (e.color, colorIdx)
    | none => getNextColor colorIdx
  else
    match LABEL_CONFIG.find? (fun e => e.name = label) with
    | some e => (e.color, colorIdx)
    | none => getNextColor colorIdx

/-- The row loop of `convertBoundingBoxRowsToAnnotations`: `index` is the
forEach position (also used for `createdAt = now + index` and standing in
for the nondeterministic `createdAnnotationId` through `idGen`),
`profileSeq` the running profile-label sequence, `colorIdx` the round-robin
color counter.  Rows with a missing coordinate or non-positive derived
width/height are skipped. -/
def convertBBGo (now : Nat) (idGen : Nat → String) (category : Cat) (imageId : String)
    (meta : Option AssetMeta) : List CsvRow → Nat → Nat → Nat → List Annot
  | [], _, _, _ => []
  | row :: rest, index, profileSeq, colorIdx =>
    let xMinV := ((row.x_min.orElse fun _ => row.xMin).orElse fun _ => row.left).orElse
      fun _ => row.x1
    let yMinV := ((row.y_min.orElse fun _ => row.yMin).orElse fun _ => row.top).orElse
      fun _ => row.y1
    let xMaxV := ((row.x_max.orElse fun _ => row.xMax).orElse fun _ => row.right).orElse
      fun _ => row.x2
    let yMaxV := ((row.y_max.orElse fun _ => row.yMax).orElse fun _ => row.bottom).orElse
      fun _ => row.y2
    match xMinV, yMinV, xMaxV, yMaxV with
    | some xm, some ym, some xM, some yM =>
      if (xM - xm) ≤ 0 ∨ (yM - ym) ≤ 0 then
        convertBBGo now idGen category imageId meta rest (index + 1) profileSeq colorIdx
      else
        let classId :=
          ((row.class_id.orElse fun _ => row.classId).orElse fun _ => row.label).getD
            (toString index)
        let labelSeq :=
          if category = Cat.model then (resolveModelLabel classId meta, profileSeq)
          else (resolveProfileLabel classId meta profileSeq, profileSeq + 1)
        let colorPair := resolveCategoryColor labelSeq.1 category colorIdx
        { id := idGen index, label := some labelSeq.1, color := colorPair.1,
          x := xm, y := ym, w := xM - xm, h := yM - ym,
          createdAt := now + index, updatedAt := now + index,
          parentId := some imageId, category := some category, ocrLabel := none } ::
          convertBBGo now idGen category imageId meta rest (index + 1) labelSeq.2 colorPair.2
    | _, _, _, _ =>
      convertBBGo now idGen category imageId meta rest (index + 1) profileSeq colorIdx

/-- `convertBoundingBoxRowsToAnnotations` from the viewer (shortened name),
starting the forEach at index 0 with the supplied counters. -/
def convertBoundingBoxRows (now : Nat) (idGen : Nat → String) (category : Cat)
    (imageId : String) (meta : Option AssetMeta) (colorIdx : Nat) (rows : List CsvRow) :
    List Annot :=
  convertBBGo now idGen category imageId meta rows 0 0 colorIdx

/-- An annotated box with negative width and a valid UUID, fed to the local
add boundary. -/
def c9bad : Annot :=
  ⟨"11111111-1111-4111-8111-111111111111", some "Column Schedule",
    "rgb(59, 130, 246)", 0, 0, -5, 3, 0, 0, none, none, none⟩

/-- The empty viewport-mode store the C9 scenario starts from. -/
def c9s0 : StoreState := ⟨[], [], [], [], -1, Mode.viewport⟩

/-- A well-formed CSV row (0,0)–(10,20). -/
def c9row : CsvRow := { x_min := some 0, y_min := some 0, x_max := some 10, y_max := some 20 }

/-- The annotated box `convertBoundingBoxRows` produces from `c9row`. -/
def c9out : Annot :=
  ⟨"gen", some "Column Schedule", "rgb(59, 130, 246)", 0, 0, 10, 20, 0, 0,
    some "img", some Cat.profile, none⟩

/-!  ## Collaboration State (`store/collaborationStore.ts`) and the inbound
message path of `services/realtimeClient.ts` + `hooks/useRealtimeSync.ts`  -/

/-- Insertion-ordered JS object/Map update: an existing key keeps its
position and gets the new value, a new key is appended. -/
def jsSet {α : Type} : List (String × α) → String → α → List (String × α)
  | [], k, v => [(k, v)]
  | (k', v') :: rest, k, v =>
    if k' = k then (k, v) :: rest else (k', v') :: jsSet rest k v

/-- JS object/Map key lookup. -/
def jsGet {α : Type} : List (String × α) → String → Option α
  | [], _ => none
  | (k', v') :: rest, k => if k' = k then some v' else jsGet rest k

/-- JS object key removal (the `{ [k]: _, ...rest }` destructuring). -/
def jsDel {α : Type} : List (String × α) → String → List (String × α)
  | [], _ => []
  | (k', v') :: rest, k => if k' = k then rest else (k', v') :: jsDel rest k

/-- `RemoteCursor` from `store/collaborationStore.ts`. -/
structure RemoteCursor where
  imageX : ℚ
  imageY : ℚ
  tool : Option String
deriving DecidableEq, Repr

/-- `RemoteUserState` from `store/collaborationStore.ts` (`selectionId` is
`string | null | undefined`, hence the nested `Option`). -/
structure RemoteUserState where
  id : String
  name : Option String
  color : String
  cursor : Option RemoteCursor
  selectionId : Option (Option String)
  lastSeen : Nat
deriving DecidableEq, Repr

/-- The collaboration store state: the remote-user registry (insertion
ordered), the local user id, and the module-level round-robin color cursor
threaded explicitly. -/
structure CollabState where
  remoteUsers : List (String × RemoteUserState)
  localUserId : Option String
  colorCursor : Nat
deriving DecidableEq, Repr

/-- `COLORS` from `store/collaborationStore.ts`. -/
def COLLAB_COLORS : List String :=
  ["#f97316", "#6366f1", "#10b981", "#ef4444", "#a855f7",
   "#0ea5e9", "#fbbf24", "#14b8a6", "#d946ef", "#22c55e"]

/-- `nextColor` from `store/collaborationStore.ts` (counter threaded). -/
def collabNextColor (cursor : Nat) : String × Nat :=
  (COLLAB_COLORS.getD (cursor % COLLAB_COLORS.length) "", cursor + 1)

/-- The guard `state.localUserId && state.localUserId === userId` shared by
every collaboration-store mutator. -/
def localMatches (st : CollabState) (userId : String) : Bool :=
  match st.localUserId with
  | some l => ¬(l = "") && l = userId
  | none => false

/-- The `info` argument of `upsertUser`. -/
structure UserInfo where
  name : Option String := none
  cursor : Option RemoteCursor := none
  selectionId : Option (Option String) := none
deriving DecidableEq, Repr

/-- `upsertUser` from `store/collaborationStore.ts`. -/
def upsertUser (now : Nat) (st : CollabState) (userId : String) (info : UserInfo) : CollabState :=
  if localMatches st userId then st
  else
    match jsGet st.remoteUsers userId with
    | some existing =>
      let nu : RemoteUserState :=
        { id := userId, color := existing.color,
          name := info.name.orElse (fun _ => existing.name),
          cursor := info.cursor.orElse (fun _ => existing.cursor),
          selectionId := match info.selectionId with
            | some v => some v
            | none => existing.selectionId,
          lastSeen := now }
      { st with remoteUsers := jsSet st.remoteUsers userId nu }
    | none =>
      let cp := collabNextColor st.colorCursor
      let nu : RemoteUserState :=
        { id := userId, color := cp.1, name := info.name, cursor := info.cursor,
          selectionId := info.selectionId, lastSeen := now }
      { st with remoteUsers := jsSet st.remoteUsers userId nu, colorCursor := cp.2 }

/-- `removeUser` from `store/collaborationStore.ts`. -/
def removeUser (st : CollabState) (userId : String) : CollabState :=
  if localMatches st userId then st
  else { st with remoteUsers := jsDel st.remoteUsers userId }

/-- `updateCursor` from `store/collaborationStore.ts`: dropped for the local
user; otherwise upsert the cursor, assigning a fresh round-robin color on
first sight. -/
def updateCursor (now : Nat) (st : CollabState) (userId : String) (cursor : RemoteCursor) :
    CollabState :=
  if localMatches st userId then st
  else
    match jsGet st.remoteUsers userId with
    | none =>
      let cp := collabNextColor st.colorCursor
      let nu : RemoteUserState :=
        { id := userId, name := none, color := cp.1, cursor := some cursor,
          selectionId := none, lastSeen := now }
      { st with remoteUsers := jsSet st.remoteUsers userId nu, colorCursor := cp.2 }
    | some existing =>
      let nu : RemoteUserState := { existing with cursor := some cursor, lastSeen := now }
      { st with remoteUsers := jsSet st.remoteUsers userId nu }

/-- `updateSelection` from `store/collaborationStore.ts`. -/
def updateSelection (now : Nat) (st : CollabState) (userId : String)
    (selectionId : Option String) : CollabState :=
  if localMatches st userId then st
  else
    match jsGet st.remoteUsers userId with
    | none =>
      let cp := collabNextColor st.colorCursor
      let nu : RemoteUserState :=
        { id := userId, name := none, color := cp.1, cursor := none,
          selectionId := some selectionId, lastSeen := now }
      { st with remoteUsers := jsSet st.remoteUsers userId nu, colorCursor := cp.2 }
    | some existing =>
      let nu : RemoteUserState := { existing with selectionId := some selectionId, lastSeen := now }
      { st with remoteUsers := jsSet st.remoteUsers userId nu }

/-- The inbound wire-message kinds of `services/realtimeClient.ts`. -/
inductive RtEvent where
  | annotationList
  | annotationCreated
  | annotationUpdated
  | annotationDeleted
  | annotationConflict
  | cursorUpdate
  | presenceJoin
  | presenceLeave
  | selectionUpdate
  | selectionClear
  | ack
  | error
deriving DecidableEq, Repr

/-- The embedded `user` object of a wire message. -/
structure WireUser where
  id : String
  name : Option String
deriving DecidableEq, Repr

/-- The cursor-relevant part of a message `payload` (`x`/`y` are `none`
when absent or non-numeric, mirroring the hook's `Number.isFinite` gate). -/
structure CursorPayload where
  x : Option ℚ
  y : Option ℚ
  tool : Option String
deriving DecidableEq, Repr

/-- The collaboration-relevant shape of a `RealtimeMessage`. -/
structure RtMessage where
  type : RtEvent
  user : Option WireUser
  payload : Option CursorPayload
  selection_id : Option (Option String)
deriving DecidableEq, Repr

/-- The self-echo guard at the top of `handleMessage`
(`message.user?.id && this.localUserId && message.user.id === this.localUserId`). -/
def selfEcho (clientLocalUserId : Option String) (user : Option WireUser) : Bool :=
  match user, clientLocalUserId with
  | some u, some l => ¬(u.id = "") && ¬(l = "") && u.id = l
  | _, _ => false

/-- The `handleMessage` dispatch of `services/realtimeClient.ts` composed
with the `useRealtimeSync` handlers, restricted to its effect on the
Collaboration State.  The first guard is the self-echo suppression: any
message whose embedded user id equals the (truthy) locally decoded user id
is dropped.  Message kinds that only touch the annotation store leave the
collaboration state unchanged. -/
def applyInboundToCollab (now : Nat) (clientLocalUserId : Option String) (st : CollabState)
    (msg : RtMessage) : CollabState :=
  if selfEcho clientLocalUserId msg.user then st
  else
    match msg.type with
    | RtEvent.cursorUpdate =>
      match msg.user, msg.payload with
      | some u, some p =>
        if ¬(u.id = "") then
          match p.x, p.y with
          | some px, some py => updateCursor now st u.id ⟨px, py, p.tool⟩
          | _, _ => st
        else st
      | _, _ => st
    | RtEvent.presenceJoin =>
      match msg.user with
      | some u => if ¬(u.id = "") then upsertUser now st u.id { name := u.name } else st
      | none => st
    | RtEvent.presenceLeave =>
      match msg.user with
      | some u => if ¬(u.id = "") then removeUser st u.id else st
      | none => st
    | RtEvent.selectionUpdate =>
      match msg.user with
      | some u =>
        if ¬(u.id = "") then
          updateSelection now st u.id
            (match msg.selection_id.getD none with
             | some a => if a = "" then none else some a
             | none => none)
        else st
      | none => st
    | RtEvent.selectionClear =>
      match msg.user with
      | some u => if ¬(u.id = "") then updateSelection now st u.id none else st
      | none => st
    | _ => st

/-!  ## Remote ingestion (`convertRemoteAnnotation` / `ingestAnnotationList`
in `store/annotationStore.ts`)  -/

/-- The coordinate aliases `convertRemoteAnnotation` probes inside
`remote.coordinates`.  A field is the finite parsed number, `none` when
absent or non-finite (`parseNumber` returns its fallback then). -/
structure CoordFields where
  x : Option ℚ := none
  left : Option ℚ := none
  x1 : Option ℚ := none
  y : Option ℚ := none
  top : Option ℚ := none
  y1 : Option ℚ := none
  w : Option ℚ := none
  width : Option ℚ := none
  right : Option ℚ := none
  x2 : Option ℚ := none
  h : Option ℚ := none
  height : Option ℚ := none
  bottom : Option ℚ := none
  y2 : Option ℚ := none
deriving DecidableEq, Repr

/-- `RemoteAnnotationPayload` from `store/annotationStore.ts`.  The
timestamp strings are modelled post-`Date.parse`: `some ms` when present
and parseable, `none` otherwise (both fall back to `Date.now()`). -/
structure RemotePayload where
  id : String
  viewport_id : Option String := none
  coordinates : Option CoordFields := none
  label : Option String := none
  label_id : Option String := none
  annotation_type : Option String := none
  created_at : Option Nat := none
  updated_at : Option Nat := none
  color : Option String := none
deriving DecidableEq, Repr

/-- `toTimestamp`: the parsed wire timestamp, else `Date.now()`. -/
def toTimestamp (now : Nat) (value : Option Nat) : Nat := value.getD now

/-- `resolveLabelColor` from `store/annotationStore.ts` (round-robin
counter threaded): catalog color by label id or name across the profile,
model and OCR catalogs, else the next default color. -/
def resolveLabelColor (colorIdx : Nat) (labelName labelId : Option String) : String × Nat :=
  if strFalsy labelName && strFalsy labelId then getNextColor colorIdx
  else
    match (PROFILE_LABEL_CONFIG ++ LABEL_CONFIG ++ OCR_LABEL_CONFIG).find?
        (fun entry => labelId = some entry.id ∨ labelName = some entry.name) with
    | some e => (e.color, colorIdx)
    | none => getNextColor colorIdx

/-- `convertRemoteAnnotation` from `store/annotationStore.ts` (shortened
name; never returns `null` in the source).  `fresh` stands for the
generated UUID used when the wire id is invalid; the returned `Nat` is the
advanced color counter. -/
def convertRemoteAnnot (now : Nat) (fresh : String) (colorIdx : Nat) (viewportId : String)
    (remote : RemotePayload) : Annot × Nat :=
  let coords := remote.coordinates.getD {}
  let xV := (coords.x.orElse fun _ => coords.left).getD (coords.x1.getD 0)
  let yV := (coords.y.orElse fun _ => coords.top).getD (coords.y1.getD 0)
  let widthRaw := ((coords.w.orElse fun _ => coords.width).orElse fun _ =>
    match coords.right, coords.left with
    | some r, some lf => some (r - lf)
    | _, _ => none).orElse fun _ =>
      match coords.x2, coords.x1 with
      | some b, some a => some (b - a)
      | _, _ => none
  let heightRaw := ((coords.h.orElse fun _ => coords.height).orElse fun _ =>
    match coords.bottom, coords.top with
    | some b, some tp => some (b - tp)
    | _, _ => none).orElse fun _ =>
      match coords.y2, coords.y1 with
      | some b, some a => some (b - a)
      | _, _ => none
  let labelName := remote.label.orElse fun _ => remote.annotation_type
  let colorPair :=
    match remote.color with
    | some c => (c, colorIdx)
    | none => resolveLabelColor colorIdx labelName remote.label_id
  ({ id := ensureUuid fresh (some remote.id),
     label := labelName,
     color := colorPair.1,
     x := xV, y := yV, w := widthRaw.getD 0, h := heightRaw.getD 0,
     createdAt := toTimestamp now remote.created_at,
     updatedAt := toTimestamp now (remote.updated_at.orElse fun _ => remote.created_at),
     parentId := some (remote.viewport_id.getD viewportId),
     category := inferCategoryFromLabel labelName,
     ocrLabel := none }, colorPair.2)

/-- The `remoteAnnotations.map(convertRemoteAnnotation)` pass (the source's
`.filter(Boolean)` is the identity since conversion never yields `null`);
`k` indexes the fresh-id supply, the counter threads left to right. -/
def convertRemoteList (now : Nat) (freshIds : Nat → String) (viewportId : String) :
    List RemotePayload → Nat → Nat → List Annot
  | [], _, _ => []
  | r :: rest, k, colorIdx =>
    let p := convertRemoteAnnot now (freshIds k) colorIdx viewportId r
    p.1 :: convertRemoteList now freshIds viewportId rest (k + 1) p.2

/-- Values of a JS object/Map in iteration order. -/
def jsValues {α : Type} (m : List (String × α)) : List α := m.map (fun p => p.2)

/-- A `forEach`-loop of `Map.set(ann.id, ann)` calls. -/
def insertAll (m : List (String × Annot)) (anns : List Annot) : List (String × Annot) :=
  anns.foldl (fun acc a => jsSet acc a.id a) m

/-- The last element of `anns` carrying id `k` — the survivor of
last-one-wins deduplication. -/
def lastWith : List Annot → String → Option Annot
  | [], _ => none
  | c :: cs, k =>
    match lastWith cs k with
    | some a => some a
    | none => if c.id = k then some c else none

/-- `ingestAnnotationList(viewportId, remoteAnnotations)` from
`store/annotationStore.ts` (shortened name): no-op on a falsy viewport id
or an empty list; otherwise keep every active annotation that is
profile-labeled, parentless, or parented elsewhere, overlay the converted
items in a `Map` keyed by id (last one wins), and drop pending annotations
of this viewport. -/
def ingestAnnotList (now : Nat) (freshIds : Nat → String) (colorIdx : Nat) (s : StoreState)
    (viewportId : String) (remotes : List RemotePayload) : StoreState :=
  if viewportId = "" ∨ remotes = [] then s
  else
    let converted := convertRemoteList now freshIds viewportId remotes 0 colorIdx
    if converted = [] then s
    else
      let preserved := s.annotations.filter (fun ann =>
        isProfileAnnot ann || ann.parentId = none || ¬(ann.parentId = some viewportId))
      let merged := insertAll (insertAll [] preserved) converted
      { s with annotations := jsValues merged,
               pendingAnnotations := s.pendingAnnotations.filter
                 (fun ann => ¬(ann.parentId = some viewportId)) }

/-- A remote payload with a valid UUID, explicit color, no coordinates. -/
def c2r1 : RemotePayload :=
  { id := "22222222-2222-4222-8222-222222222222", viewport_id := some "V",
    created_at := some 3, updated_at := some 4, color := some "c" }

/-- The annotated box `convertRemoteAnnotation` produces from `c2r1`. -/
def c2a1 : Annot :=
  ⟨"22222222-2222-4222-8222-222222222222", none, "c", 0, 0, 0, 0, 3, 4,
    some "V", none, none⟩

/-- The empty store the C2 witness starts from. -/
def c2s0 : StoreState := ⟨[], [], [], [], -1, Mode.viewport⟩

/-- A profile-labeled annotation that carries `parentId = "V"`. -/
def c2prof : Annot :=
  ⟨"P2", some "Column Schedule", "rgb(59, 130, 246)", 0, 0, 1, 1, 0, 0,
    some "V", some Cat.profile, none⟩

/-- The store holding `c2prof` before the C2 counterexample ingest. -/
def c2s1 : StoreState := ⟨[c2prof], [], [], [], -1, Mode.viewport⟩

/-- A sequence of `updateAnnotation` calls (left to right). -/
def applyUpdates (now : Nat) (ps : List (String × AnnotPatch)) (s : StoreState) : StoreState :=
  ps.foldl (fun st p => updateAnnot now p.1 p.2 st) s

/-- `k` consecutive `undo()` calls. -/
def iterUndo : Nat → StoreState → StoreState
  | 0, s => s
  | k + 1, s => iterUndo k (undo s)

/-- The history entries that a sequence of `updateAnnotation` calls pushes:
each entry snapshots the active set right after that update. -/
def updTrace (now : Nat) : List (String × AnnotPatch) → List Annot → List HistEntry
  | [], _ => []
  | p :: ps, anns =>
    ⟨updStep now p.1 p.2 anns, now⟩ :: updTrace now ps (updStep now p.1 p.2 anns)

/-!  Concrete states exercising the store (used by the counterexample and
witness theorems below).  -/

/-- A profile-labeled rectangle at (0,0) sized 100×100. -/
def c1P : Annot :=
  ⟨"P", some "Column Schedule", "rgb(59, 130, 246)", 0, 0, 100, 100, 0, 0, none,
    some Cat.profile, none⟩

/-- A child box fully contained in `c1P` but carrying `parentId = "Q"`. -/
def c1A : Annot :=
  ⟨"A", some "T1", "rgb(59, 130, 246)", 10, 10, 5, 5, 0, 0, some "Q", some Cat.model, none⟩

/-- A pending child of `c1P` (`parentId = "P"`). -/
def c1B : Annot :=
  ⟨"B", some "T1", "rgb(59, 130, 246)", 20, 20, 5, 5, 0, 0, some "P", some Cat.model, none⟩

/-- Store state before deleting `c1P`: `c1A` active, `c1B` pending and
selected. -/
def c1State : StoreState := ⟨[c1P, c1A], [c1B], ["B"], [], -1, Mode.viewport⟩

/-- Store state with a two-entry history, pointer at 1, nonempty selection. -/
def c3State : StoreState := ⟨[], [], ["a"], [⟨[], 0⟩, ⟨[], 1⟩], 1, Mode.viewport⟩

/-- The single annotated box edited in the C4 scenario, initially at x = 0. -/
def c4a : Annot := ⟨"a", some "T1", "rgb(59, 130, 246)", 0, 0, 1, 1, 0, 0, none, some Cat.model, none⟩

/-- Ten sequential partial updates moving `x` to 1, 2, …, 10. -/
def c4patches : List (String × AnnotPatch) :=
  [("a", { x := some 1 }), ("a", { x := some 2 }), ("a", { x := some 3 }),
   ("a", { x := some 4 }), ("a", { x := some 5 }), ("a", { x := some 6 }),
   ("a", { x := some 7 }), ("a", { x := some 8 }), ("a", { x := some 9 }),
   ("a", { x := some 10 })]

/-- The C4 start state: one annotated box, empty history, pointer −1. -/
def c4s0 : StoreState := ⟨[c4a], [], [], [], -1, Mode.model⟩

end Inkwell

namespace Inkwell

/-- C5: round-trip identity of the coordinate transforms. -/
theorem screenToImage_imageToScreen_id (t : Transform) (sl st : ℚ) (p : Pt)
    (hs : MIN_ZOOM ≤ t.scale ∧ t.scale ≤ MAX_ZOOM) :
    screenToImage t sl st (imageToScreen t sl st p.x p.y).x (imageToScreen t sl st p.x p.y).y = p := by
  obtain ⟨h1, _⟩ := hs
  have hne : t.scale ≠ 0 := by
    have : (0 : ℚ) < t.scale := lt_of_lt_of_le (by norm_num [MIN_ZOOM]) h1
    exact ne_of_gt this
  cases p with
  | mk px py =>
    simp only [screenToImage, imageToScreen]
    congr 1 <;> field_simp

theorem screenToImage_imageToScreen_id_witness :
    (MIN_ZOOM ≤ (2 : ℚ) ∧ (2 : ℚ) ≤ MAX_ZOOM) ∧
      screenToImage ⟨2, 7, -3⟩ 5 6
        (imageToScreen ⟨2, 7, -3⟩ 5 6 (⟨11, 13⟩ : Pt).x (⟨11, 13⟩ : Pt).y).x
        (imageToScreen ⟨2, 7, -3⟩ 5 6 (⟨11, 13⟩ : Pt).x (⟨11, 13⟩ : Pt).y).y = ⟨11, 13⟩ :=
  ⟨by norm_num [MIN_ZOOM, MAX_ZOOM],
   screenToImage_imageToScreen_id ⟨2, 7, -3⟩ 5 6 ⟨11, 13⟩ (by norm_num [MIN_ZOOM, MAX_ZOOM])⟩

/-- Fixed-point algebra behind `zoomAt`: solving the translation as
`anchor - imagePoint * newScale` keeps the image point at the anchor. -/
theorem zoom_fixed_point (a b s : ℚ) (hS : s ≠ 0) :
    (a - (a - (a - b) * s)) / s = a - b := by
  have h : a - (a - (a - b) * s) = (a - b) * s := by ring
  rw [h, mul_div_assoc, div_self hS, mul_one]

/-- C6: `zoomAt` clamps the new scale as specified and chooses the new
translation so that the image-space point under the cursor (at the call's
scroll offset) is the same before and after the call. -/
theorem zoomAt_preserves_cursor_point (t : Transform) (sl st x y delta : ℚ)
    (hs : MIN_ZOOM ≤ t.scale ∧ t.scale ≤ MAX_ZOOM) :
    (zoomAt t sl st x y delta).scale =
      max MIN_ZOOM (min MAX_ZOOM (t.scale * (if delta > 0 then 11 / 10 else 9 / 10))) ∧
    screenToImage (zoomAt t sl st x y delta) sl st x y = screenToImage t sl st x y := by
  obtain ⟨h1, _⟩ := hs
  have hMZ : (0 : ℚ) < MIN_ZOOM := by norm_num [MIN_ZOOM]
  have hne : t.scale ≠ 0 := ne_of_gt (lt_of_lt_of_le hMZ h1)
  refine ⟨rfl, ?_⟩
  set S := max MIN_ZOOM (min MAX_ZOOM (t.scale * (if delta > 0 then (11 : ℚ) / 10 else 9 / 10))) with hSdef
  have hSne : S ≠ 0 := ne_of_gt (lt_of_lt_of_le hMZ (le_max_left _ _))
  show Pt.mk _ _ = Pt.mk _ _
  simp only [zoomAt, ← hSdef]
  congr 1
  · have := zoom_fixed_point (x + sl) t.translateX S hSne
    calc (x + sl - (x + sl - (x + sl - t.translateX) / t.scale * S)) / S
        = ((x + sl) - ((x + sl) - ((x + sl) - ((x + sl) - (x + sl - t.translateX) / t.scale)) * S)) / S := by
          ring_nf
      _ = (x + sl) - ((x + sl) - (x + sl - t.translateX) / t.scale) := zoom_fixed_point _ _ _ hSne
      _ = (x + sl - t.translateX) / t.scale := by ring
  · calc (y + st - (y + st - (y + st - t.translateY) / t.scale * S)) / S
        = ((y + st) - ((y + st) - ((y + st) - ((y + st) - (y + st - t.translateY) / t.scale)) * S)) / S := by
          ring_nf
      _ = (y + st) - ((y + st) - (y + st - t.translateY) / t.scale) := zoom_fixed_point _ _ _ hSne
      _ = (y + st - t.translateY) / t.scale := by ring

theorem zoomAt_preserves_cursor_point_witness :
    (MIN_ZOOM ≤ (1 : ℚ) ∧ (1 : ℚ) ≤ MAX_ZOOM) ∧
      ((zoomAt ⟨1, 3, 4⟩ 2 2 10 20 1).scale =
        max MIN_ZOOM (min MAX_ZOOM ((1 : ℚ) * (if (1 : ℚ) > 0 then 11 / 10 else 9 / 10))) ∧
       screenToImage (zoomAt ⟨1, 3, 4⟩ 2 2 10 20 1) 2 2 10 20 = screenToImage ⟨1, 3, 4⟩ 2 2 10 20) :=
  ⟨by norm_num [MIN_ZOOM, MAX_ZOOM],
   zoomAt_preserves_cursor_point ⟨1, 3, 4⟩ 2 2 10 20 1 (by norm_num [MIN_ZOOM, MAX_ZOOM])⟩

theorem saveHistory_annotations (now : Nat) (s : StoreState) :
    (saveHistory now s).annotations = s.annotations := rfl

theorem saveHistory_pendingAnnotations (now : Nat) (s : StoreState) :
    (saveHistory now s).pendingAnnotations = s.pendingAnnotations := rfl

theorem saveHistory_selectedIds (now : Nat) (s : StoreState) :
    (saveHistory now s).selectedIds = s.selectedIds := rfl

/-- C1: what `deleteAnnotation` actually removes when the target is a
profile.  After deleting `P` (found in the active set, profile-labeled), the
active set contains neither `P` nor any annotation with `parentId = P.id`
nor any parentless annotation contained in `P`; the pending set likewise;
and every id still selected was previously selected, is not `P`'s id, and is
not the id of any removed *active* annotation. -/
theorem deleteAnnot_cascade_spec (now : Nat) (id : String) (s : StoreState) (P : Annot)
    (hfind : s.annotations.find? (fun ann => ann.id = id) = some P)
    (hprof : isProfileAnnot P = true) :
    (∀ a ∈ (deleteAnnot now id s).annotations,
        a.id ≠ id ∧ a.parentId ≠ some P.id ∧
        (a.parentId = none → isAnnotInsideProfile a P = false)) ∧
    (∀ a ∈ (deleteAnnot now id s).pendingAnnotations,
        a.parentId ≠ some P.id ∧
        (a.parentId = none → isAnnotInsideProfile a P = false)) ∧
    (∀ sid ∈ (deleteAnnot now id s).selectedIds,
        sid ∈ s.selectedIds ∧ sid ≠ id ∧
        ¬∃ a ∈ s.annotations, a.id = sid ∧ a.id ≠ id ∧
          (a.parentId = some P.id ∨
            (a.parentId = none ∧ isAnnotInsideProfile a P = true))) := by
  have hdel : deleteAnnot now id s =
      saveHistory now
        { s with
          annotations :=
            (s.annotations.filter (fun ann => ¬(ann.id = id))).filter (cascadeKeep P),
          pendingAnnotations := s.pendingAnnotations.filter (cascadeKeep P),
          selectedIds := s.selectedIds.filter (fun sid =>
            ¬(sid = id) ∧
            ¬(((s.annotations.filter (fun ann => ¬(ann.id = id))).filter
                (fun ann => ¬(cascadeKeep P ann = true))).any
                  (fun ann => ann.id = sid) = true)) } := by
    unfold deleteAnnot
    rw [hfind]
    simp only [hprof, if_true]
  refine ⟨?_, ?_, ?_⟩
  · intro a ha
    rw [hdel, saveHistory_annotations] at ha
    rw [List.mem_filter, List.mem_filter] at ha
    obtain ⟨⟨haS, haid⟩, hakeep⟩ := ha
    have haid' : a.id ≠ id := by simpa using haid
    refine ⟨haid', ?_, ?_⟩
    · intro hpar
      rw [cascadeKeep, hpar] at hakeep
      simp at hakeep
    · intro hpar
      rw [cascadeKeep, hpar] at hakeep
      simpa using hakeep
  · intro a ha
    rw [hdel, saveHistory_pendingAnnotations] at ha
    rw [List.mem_filter] at ha
    obtain ⟨haS, hakeep⟩ := ha
    refine ⟨?_, ?_⟩
    · intro hpar
      rw [cascadeKeep, hpar] at hakeep
      simp at hakeep
    · intro hpar
      rw [cascadeKeep, hpar] at hakeep
      simpa using hakeep
  · intro sid hsid
    rw [hdel, saveHistory_selectedIds] at hsid
    rw [List.mem_filter] at hsid
    obtain ⟨hsS, hpred⟩ := hsid
    rw [decide_eq_true_eq] at hpred
    obtain ⟨hne, hany⟩ := hpred
    refine ⟨hsS, hne, ?_⟩
    rintro ⟨a, haS, hid, hneq, hrem⟩
    apply hany
    rw [List.any_eq_true]
    refine ⟨a, ?_, by simpa using hid⟩
    rw [List.mem_filter, List.mem_filter]
    refine ⟨⟨haS, by simpa using hneq⟩, ?_⟩
    rcases hrem with hpar | ⟨hpar, hins⟩
    · simp [cascadeKeep, hpar]
    · simp [cascadeKeep, hpar, hins]

theorem deleteAnnot_cascade_spec_witness :
    (c1State.annotations.find? (fun ann => ann.id = "P") = some c1P ∧
      isProfileAnnot c1P = true) ∧
    ∀ a ∈ (deleteAnnot 0 "P" c1State).pendingAnnotations,
      a.parentId ≠ some c1P.id ∧
      (a.parentId = none → isAnnotInsideProfile a c1P = false) :=
  ⟨⟨by decide, by decide⟩,
   (deleteAnnot_cascade_spec 0 "P" c1State c1P (by decide) (by decide)).2.1⟩

/-- C1 counterexample: `c1A` is fully contained in the profile `c1P` but has
`parentId = "Q"`, so the cascade keeps it in the active set; and the removed
pending child `c1B` (`parentId = "P"`) keeps its id in the selection. -/
theorem deleteAnnot_cascade_cex :
    isAnnotInsideProfile c1A c1P = true ∧
    c1B.parentId = some c1P.id ∧
    c1A ∈ (deleteAnnot 0 "P" c1State).annotations ∧
    c1B ∉ (deleteAnnot 0 "P" c1State).pendingAnnotations ∧
    "B" ∈ (deleteAnnot 0 "P" c1State).selectedIds := by
  refine ⟨?_, by decide, by decide, by decide, by decide⟩
  rw [isAnnotInsideProfile, decide_eq_true_eq]
  norm_num [c1A, c1P]

/-- C3 (amended): `undo`/`redo` are no-ops at their boundaries, otherwise
move the pointer by exactly one and load the entry at the new pointer; the
selection set is left unchanged by both (it is *not* cleared). -/
theorem undo_redo_spec (s : StoreState) :
    (s.historyIndex ≤ 0 → undo s = s) ∧
    (0 < s.historyIndex →
      (undo s).historyIndex = s.historyIndex - 1 ∧
      (undo s).annotations =
        (s.history.getD (s.historyIndex - 1).toNat emptyEntry).annotations ∧
      (undo s).history = s.history) ∧
    ((s.history.length : Int) - 1 ≤ s.historyIndex → redo s = s) ∧
    (s.historyIndex < (s.history.length : Int) - 1 →
      (redo s).historyIndex = s.historyIndex + 1 ∧
      (redo s).annotations =
        (s.history.getD (s.historyIndex + 1).toNat emptyEntry).annotations ∧
      (redo s).history = s.history) ∧
    (undo s).selectedIds = s.selectedIds ∧
    (redo s).selectedIds = s.selectedIds := by
  refine ⟨?_, ?_, ?_, ?_, ?_, ?_⟩
  · intro h
    rw [undo, if_pos h]
  · intro h
    rw [undo, if_neg (by omega)]
    exact ⟨rfl, rfl, rfl⟩
  · intro h
    rw [redo, if_pos h]
  · intro h
    rw [redo, if_neg (by omega)]
    exact ⟨rfl, rfl, rfl⟩
  · rw [undo]
    split <;> rfl
  · rw [redo]
    split <;> rfl

theorem undo_redo_spec_witness :
    (0 < c3State.historyIndex ∧ c3State.historyIndex < (c3State.history.length : Int) - 1 + 1) ∧
    (undo c3State).historyIndex = c3State.historyIndex - 1 ∧
    (undo c3State).selectedIds = c3State.selectedIds :=
  ⟨by decide,
   ((undo_redo_spec c3State).2.1 (by decide)).1,
   (undo_redo_spec c3State).2.2.2.2.1⟩

/-- C3 counterexample: from pointer 1 with selection `["a"]`, `undo` moves
the pointer to 0 but leaves the selection set untouched, contradicting
"clear the selection set on both operations". -/
theorem undo_keeps_selection_cex :
    0 < c3State.historyIndex ∧ c3State.selectedIds = ["a"] ∧
    (undo c3State).historyIndex = 0 ∧ (undo c3State).selectedIds = ["a"] := by decide

theorem saveHistory_spec (now : Nat) (s : StoreState)
    (hIdx : s.historyIndex = (s.history.length : Int) - 1)
    (hLen : s.history.length ≤ 49) :
    saveHistory now s =
      { s with history := s.history ++ [⟨s.annotations, now⟩],
               historyIndex := (s.history.length : Int) } := by
  have h1 : (s.historyIndex + 1).toNat = s.history.length := by omega
  have h2 : ¬(s.history ++ [(⟨s.annotations, now⟩ : HistEntry)]).length > 50 := by
    simp only [List.length_append, List.length_singleton]
    omega
  have h3 : ((s.history ++ [(⟨s.annotations, now⟩ : HistEntry)]).length : Int) - 1 =
      (s.history.length : Int) := by
    simp only [List.length_append, List.length_singleton]
    push_cast
    ring
  simp only [saveHistory]
  rw [h1, List.take_length, if_neg h2, h3]

theorem updTrace_length (now : Nat) (ps : List (String × AnnotPatch)) :
    ∀ anns, (updTrace now ps anns).length = ps.length := by
  induction ps with
  | nil => intro anns; rfl
  | cons p ps ih =>
    intro anns
    rw [updTrace]
    simp only [List.length_cons]
    rw [ih]

theorem applyUpdates_spec (now : Nat) (ps : List (String × AnnotPatch)) (s : StoreState)
    (hIdx : s.historyIndex = (s.history.length : Int) - 1)
    (hLen : s.history.length + ps.length ≤ 50) :
    (applyUpdates now ps s).history = s.history ++ updTrace now ps s.annotations ∧
    (applyUpdates now ps s).historyIndex = (s.history.length : Int) + ps.length - 1 ∧
    (applyUpdates now ps s).selectedIds = s.selectedIds ∧
    (applyUpdates now ps s).pendingAnnotations = s.pendingAnnotations := by
  induction ps generalizing s with
  | nil =>
    refine ⟨by simp [applyUpdates, updTrace], ?_, rfl, rfl⟩
    show s.historyIndex = (s.history.length : Int) + (([] : List (String × AnnotPatch)).length : Int) - 1
    simp only [List.length_nil]
    omega
  | cons p ps ih =>
    have hlen49 : s.history.length ≤ 49 := by
      rw [List.length_cons] at hLen
      omega
    have hfold : applyUpdates now (p :: ps) s = applyUpdates now ps (updateAnnot now p.1 p.2 s) :=
      rfl
    have hs1 : updateAnnot now p.1 p.2 s =
        { s with
          annotations := updStep now p.1 p.2 s.annotations,
          history := s.history ++ [⟨updStep now p.1 p.2 s.annotations, now⟩],
          historyIndex := (s.history.length : Int) } := by
      unfold updateAnnot
      exact saveHistory_spec now _ hIdx hlen49
    rw [hfold, hs1]
    have hIdx2 : (s.history.length : Int) =
        ((s.history ++ [(⟨updStep now p.1 p.2 s.annotations, now⟩ : HistEntry)]).length : Int) - 1 := by
      simp only [List.length_append, List.length_singleton]
      push_cast
      ring
    have hLen2 :
        (s.history ++ [(⟨updStep now p.1 p.2 s.annotations, now⟩ : HistEntry)]).length + ps.length ≤ 50 := by
      simp only [List.length_append, List.length_singleton]
      rw [List.length_cons] at hLen
      omega
    obtain ⟨H1, H2, H3, H4⟩ := ih
      { s with
        annotations := updStep now p.1 p.2 s.annotations,
        history := s.history ++ [⟨updStep now p.1 p.2 s.annotations, now⟩],
        historyIndex := (s.history.length : Int) } hIdx2 hLen2
    refine ⟨?_, ?_, H3, H4⟩
    · rw [H1]
      show (s.history ++ [(⟨updStep now p.1 p.2 s.annotations, now⟩ : HistEntry)]) ++
          updTrace now ps (updStep now p.1 p.2 s.annotations) =
        s.history ++ updTrace now (p :: ps) s.annotations
      rw [updTrace, List.append_assoc]
      rfl
    · rw [H2]
      show ((s.history ++ [(⟨updStep now p.1 p.2 s.annotations, now⟩ : HistEntry)]).length : Int) +
          (ps.length : Int) - 1 =
        (s.history.length : Int) + ((p :: ps).length : Int) - 1
      simp only [List.length_append, List.length_singleton, List.length_cons, List.length_nil]
      push_cast
      ring

theorem iterUndo_fix (k : Nat) (s : StoreState) (h : s.historyIndex = 0) :
    iterUndo k s = s := by
  induction k with
  | zero => rfl
  | succ k ih =>
    have hu : undo s = s := by rw [undo, if_pos (by omega)]
    show iterUndo k (undo s) = s
    rw [hu]
    exact ih

theorem iterUndo_spec (k : Nat) (s : StoreState) (h0 : 0 ≤ s.historyIndex) :
    (iterUndo k s).history = s.history ∧
    (iterUndo k s).historyIndex = max 0 (s.historyIndex - k) ∧
    (iterUndo k s).selectedIds = s.selectedIds ∧
    (iterUndo k s).pendingAnnotations = s.pendingAnnotations ∧
    (1 ≤ s.historyIndex → s.historyIndex ≤ (k : Int) →
      (iterUndo k s).annotations = (s.history.getD 0 emptyEntry).annotations) := by
  induction k generalizing s with
  | zero =>
    refine ⟨rfl, ?_, rfl, rfl, ?_⟩
    · show s.historyIndex = max 0 (s.historyIndex - ((0 : Nat) : Int))
      omega
    · intro h1 h2
      exact absurd h1 (by omega)
  | succ k ih =>
    by_cases hle : s.historyIndex ≤ 0
    · have hidx0 : s.historyIndex = 0 := le_antisymm hle h0
      have hu : undo s = s := by rw [undo, if_pos hle]
      have hstep : iterUndo (k + 1) s = iterUndo k s := by
        show iterUndo k (undo s) = iterUndo k s
        rw [hu]
      rw [hstep]
      obtain ⟨A1, A2, A3, A4, _⟩ := ih s h0
      refine ⟨A1, ?_, A3, A4, ?_⟩
      · rw [A2]
        omega
      · intro h1 _
        exact absurd h1 (by omega)
    · have hu : undo s =
          { s with
            annotations := (s.history.getD (s.historyIndex - 1).toNat emptyEntry).annotations,
            historyIndex := s.historyIndex - 1 } := by
        rw [undo, if_neg hle]
      have hstep : iterUndo (k + 1) s = iterUndo k (undo s) := rfl
      rw [hstep, hu]
      have h0' : (0 : Int) ≤ s.historyIndex - 1 := by omega
      obtain ⟨A1, A2, A3, A4, A5⟩ := ih
        { s with
          annotations := (s.history.getD (s.historyIndex - 1).toNat emptyEntry).annotations,
          historyIndex := s.historyIndex - 1 } h0'
      refine ⟨A1, ?_, A3, A4, ?_⟩
      · rw [A2]
        show max 0 (s.historyIndex - 1 - (k : Int)) = max 0 (s.historyIndex - ((k + 1 : Nat) : Int))
        omega
      · intro h1 hk
        by_cases hidx1 : s.historyIndex = 1
        · rw [iterUndo_fix k _ (show s.historyIndex - 1 = 0 by omega)]
          show (s.history.getD (s.historyIndex - 1).toNat emptyEntry).annotations =
            (s.history.getD 0 emptyEntry).annotations
          have ht : (s.historyIndex - 1).toNat = 0 := by omega
          rw [ht]
        · have h1' : (1 : Int) ≤ s.historyIndex - 1 := by omega
          have hk' : s.historyIndex - 1 ≤ (k : Int) := by
            rw [Nat.cast_add, Nat.cast_one] at hk
            omega
          exact A5 h1' hk'

/-- C4 (amended): from an empty history, 10 sequential `updateAnnotation`
calls produce a stack of length 10 with pointer 9; 10 consecutive `undo()`
calls then leave the pointer at 0 and load the snapshot recorded *after the
first update* — the pre-edit state was never snapshotted and is not
restored. -/
theorem update10_undo10_spec (now : Nat) (s0 : StoreState)
    (ps : List (String × AnnotPatch))
    (h0 : s0.history = []) (h1 : s0.historyIndex = -1) (hps : ps.length = 10) :
    (applyUpdates now ps s0).history.length = 10 ∧
    (applyUpdates now ps s0).historyIndex = 9 ∧
    (iterUndo 10 (applyUpdates now ps s0)).historyIndex = 0 ∧
    (iterUndo 10 (applyUpdates now ps s0)).annotations =
      ((updTrace now ps s0.annotations).getD 0 emptyEntry).annotations ∧
    (∀ p rest, ps = p :: rest →
      ((updTrace now ps s0.annotations).getD 0 emptyEntry).annotations =
        s0.annotations.map (fun ann => if ann.id = p.1 then applyPatch p.2 now ann else ann)) := by
  obtain ⟨H1, H2, H3, H4⟩ :=
    applyUpdates_spec now ps s0 (by rw [h0, h1]; rfl) (by rw [h0]; simpa using by omega)
  have hulen : (applyUpdates now ps s0).history.length = 10 := by
    rw [H1, h0, List.nil_append, updTrace_length, hps]
  have huidx : (applyUpdates now ps s0).historyIndex = 9 := by
    rw [H2, h0, hps]
    rfl
  obtain ⟨B1, B2, B3, B4, B5⟩ := iterUndo_spec 10 (applyUpdates now ps s0) (by omega)
  refine ⟨hulen, huidx, ?_, ?_, ?_⟩
  · rw [B2, huidx]
    rfl
  · rw [B5 (by omega) (by omega), H1, h0, List.nil_append]
  · intro p rest hcons
    subst hcons
    rfl

theorem update10_undo10_spec_witness :
    (c4s0.history = [] ∧ c4s0.historyIndex = -1 ∧ c4patches.length = 10) ∧
    (applyUpdates 5 c4patches c4s0).history.length = 10 ∧
    (applyUpdates 5 c4patches c4s0).historyIndex = 9 :=
  ⟨⟨rfl, rfl, rfl⟩,
   (update10_undo10_spec 5 c4s0 c4patches rfl rfl rfl).1,
   (update10_undo10_spec 5 c4s0 c4patches rfl rfl rfl).2.1⟩

/-- C4 counterexample: in the concrete 10-update scenario the stack has
length 10 and pointer 9, but after 10 `undo()` calls the active set is the
state after the *first* update (x = 1), not the pre-edit state (x = 0). -/
theorem update10_undo10_cex :
    (applyUpdates 5 c4patches c4s0).history.length = 10 ∧
    (applyUpdates 5 c4patches c4s0).historyIndex = 9 ∧
    (iterUndo 10 (applyUpdates 5 c4patches c4s0)).annotations ≠ c4s0.annotations := by
  decide

theorem relinkOne_shape (b : List Annot) (a : Annot) :
    isProfileAnnotShape (relinkOne b a) = isProfileAnnotShape a := by
  rw [relinkOne]
  split <;> rfl

theorem relinkOne_inside_left (b : List Annot) (a p : Annot) :
    isAnnotInsideProfile (relinkOne b a) p = isAnnotInsideProfile a p := by
  rw [relinkOne]
  split <;> rfl

theorem filter_shape_map_relink (b : List Annot) (xs : List Annot) :
    (xs.map (relinkOne b)).filter isProfileAnnotShape = xs.filter isProfileAnnotShape := by
  induction xs with
  | nil => rfl
  | cons a l ih =>
    rw [List.map_cons, List.filter_cons, List.filter_cons, relinkOne_shape]
    cases h : isProfileAnnotShape a with
    | false => simpa [h] using ih
    | true =>
      have hfa : relinkOne b a = a := by rw [relinkOne, if_pos h]
      simpa [h, hfa] using ih

theorem profileParentFor_relink_arg (b xs : List Annot) (a : Annot) :
    profileParentFor xs (relinkOne b a) = profileParentFor xs a := by
  rw [profileParentFor, profileParentFor]
  have hfun : (fun profile => isAnnotInsideProfile (relinkOne b a) profile) =
      (fun profile => isAnnotInsideProfile a profile) :=
    funext (fun profile => relinkOne_inside_left b a profile)
  rw [hfun]

theorem profileParentFor_map_relink (xs : List Annot) (a : Annot) :
    profileParentFor (xs.map (relinkOne xs)) a = profileParentFor xs a := by
  rw [profileParentFor, profileParentFor, filter_shape_map_relink]

theorem relinkOne_idem (xs : List Annot) (a : Annot) :
    relinkOne (xs.map (relinkOne xs)) (relinkOne xs a) = relinkOne xs a := by
  cases h : isProfileAnnotShape a with
  | true =>
    have hfa : relinkOne xs a = a := by rw [relinkOne, if_pos h]
    rw [hfa, relinkOne, if_pos h]
  | false =>
    have hfa : relinkOne xs a = { a with parentId := profileParentFor xs a } := by
      rw [relinkOne, if_neg (by simp [h])]
    rw [hfa]
    have hsh : isProfileAnnotShape { a with parentId := profileParentFor xs a } = false := h
    rw [relinkOne, if_neg (by simp [hsh])]
    have hpar : profileParentFor (xs.map (relinkOne xs))
        { a with parentId := profileParentFor xs a } = profileParentFor xs a := by
      rw [profileParentFor_map_relink]
      rfl
    rw [hpar]

theorem isEmpty_false_of_ne_nil {α : Type} {l : List α} (h : l ≠ []) : l.isEmpty = false := by
  cases l with
  | nil => exact absurd rfl h
  | cons a l => rfl

theorem link_of_no_profiles (xs : List Annot) (h : xs.filter isProfileAnnotShape = []) :
    linkAnnotationsToProfiles xs = xs := by
  simp only [linkAnnotationsToProfiles, h]
  rfl

theorem link_eq_map (xs : List Annot) (h : xs.filter isProfileAnnotShape ≠ []) :
    linkAnnotationsToProfiles xs = xs.map (relinkOne xs) := by
  have hne : (xs.filter isProfileAnnotShape).isEmpty = false := isEmpty_false_of_ne_nil h
  simp only [linkAnnotationsToProfiles, hne, Bool.false_eq_true, if_false]
  have hupd : xs.map (fun ann =>
      if isProfileAnnotShape ann then ann
      else
        if ((xs.filter isProfileAnnotShape).find?
              (fun profile => isAnnotInsideProfile ann profile)).map (fun p => p.id) =
            ann.parentId then ann
        else { ann with parentId :=
          ((xs.filter isProfileAnnotShape).find?
            (fun profile => isAnnotInsideProfile ann profile)).map (fun p => p.id) }) =
      xs.map (relinkOne xs) := by
    apply List.map_congr_left
    intro a _
    by_cases hsh : isProfileAnnotShape a = true
    · rw [if_pos hsh, relinkOne, if_pos hsh]
    · rw [if_neg hsh, relinkOne, if_neg hsh]
      by_cases hpar : ((xs.filter isProfileAnnotShape).find?
          (fun profile => isAnnotInsideProfile a profile)).map (fun p => p.id) = a.parentId
      · rw [if_pos hpar, profileParentFor]
        conv_rhs => rw [hpar]
      · rw [if_neg hpar, profileParentFor]
  rw [hupd]
  split <;> rename_i hsplit
  · exact hsplit.symm
  · rfl

/-- C7 (amended): `reconcile()` recomputes the parent of *every* non-profile
element (including ones that already carry a `parentId`, which may be
overwritten or cleared), setting `parentId` to the id of the first profile
rectangle in list order fully containing it (none when no profile contains
it); it is idempotent; it returns the collection unchanged when there are no
profiles or when no element's effective parent changed. -/
theorem reconcile_spec (xs : List Annot) :
    linkAnnotationsToProfiles (linkAnnotationsToProfiles xs) = linkAnnotationsToProfiles xs ∧
    (xs.filter isProfileAnnotShape ≠ [] →
      linkAnnotationsToProfiles xs = xs.map (relinkOne xs)) ∧
    (xs.filter isProfileAnnotShape = [] → linkAnnotationsToProfiles xs = xs) ∧
    ((∀ a ∈ xs, isProfileAnnotShape a = false → profileParentFor xs a = a.parentId) →
      linkAnnotationsToProfiles xs = xs) := by
  have hunchanged : (∀ a ∈ xs, isProfileAnnotShape a = false →
      profileParentFor xs a = a.parentId) → linkAnnotationsToProfiles xs = xs := by
    intro h
    by_cases hp : xs.filter isProfileAnnotShape = []
    · exact link_of_no_profiles xs hp
    · rw [link_eq_map xs hp]
      have hid : ∀ a ∈ xs, relinkOne xs a = id a := by
        intro a ha
        cases hsh : isProfileAnnotShape a with
        | true => rw [relinkOne, if_pos hsh]; rfl
        | false =>
          rw [relinkOne, if_neg (by simp [hsh]), h a ha hsh]
          rfl
      rw [List.map_congr_left hid, List.map_id]
  have hidem : linkAnnotationsToProfiles (linkAnnotationsToProfiles xs) =
      linkAnnotationsToProfiles xs := by
    by_cases hp : xs.filter isProfileAnnotShape = []
    · rw [link_of_no_profiles xs hp, link_of_no_profiles xs hp]
    · rw [link_eq_map xs hp]
      have hp2 : (xs.map (relinkOne xs)).filter isProfileAnnotShape ≠ [] := by
        rw [filter_shape_map_relink]
        exact hp
      rw [link_eq_map _ hp2, List.map_map]
      apply List.map_congr_left
      intro a _
      exact relinkOne_idem xs a
  exact ⟨hidem, link_eq_map xs, link_of_no_profiles xs, hunchanged⟩

theorem reconcile_spec_witness :
    ([c1P, c1A].filter isProfileAnnotShape ≠ []) ∧
    linkAnnotationsToProfiles [c1P, c1A] = [c1P, c1A].map (relinkOne [c1P, c1A]) :=
  ⟨by decide, (reconcile_spec [c1P, c1A]).2.1 (by decide)⟩

/-- C7 counterexample: `c7A` carries `parentId = "zzz"` and sits inside no
profile; `reconcile` still recomputes it and *clears* its parent, although
the claim says parents are recomputed only for annotations without a
`parentId`. -/
theorem reconcile_cex :
    c7A.parentId = some "zzz" ∧
    ((linkAnnotationsToProfiles [c1P, c7A]).getD 1 c7A).parentId = none := by
  refine ⟨by decide, ?_⟩
  have hin : isAnnotInsideProfile c7A c1P = false := by
    rw [isAnnotInsideProfile]
    apply decide_eq_false
    rintro ⟨-, -, h3, -⟩
    norm_num [c7A, c1P] at h3
  rw [link_eq_map [c1P, c7A] (by decide)]
  show (relinkOne [c1P, c7A] c7A).parentId = none
  rw [relinkOne, if_neg (by decide)]
  show profileParentFor [c1P, c7A] c7A = none
  rw [profileParentFor]
  have hfil : [c1P, c7A].filter isProfileAnnotShape = [c1P] := by decide
  rw [hfil]
  rw [List.find?_cons_of_neg _ (by simp [hin])]
  rfl

/-- C8 (amended): once the fully-contained id set S is computed, the final
selection is: the previous selection when S is empty; exactly S when S is
nonempty and either the mode is not viewport or S holds no profile-labeled
id; just the last profile id of S in viewport mode when S holds one; and in
every case nothing outside S joins the selection beyond what was already
selected. -/
theorem marquee_spec (mode : Mode) (annotations : List Annot) (t : Transform) (sl st : ℚ)
    (startP endP : Pt) (prev : List String) :
    (marqueeInsideIds annotations t sl st startP endP = [] →
      marqueeSelect mode annotations t sl st startP endP prev = prev) ∧
    (marqueeInsideIds annotations t sl st startP endP ≠ [] →
      (mode ≠ Mode.viewport ∨
        (marqueeInsideIds annotations t sl st startP endP).any (marqueeIsProf annotations) = false) →
      marqueeSelect mode annotations t sl st startP endP prev =
        marqueeInsideIds annotations t sl st startP endP) ∧
    (∀ lp, mode = Mode.viewport →
      (marqueeInsideIds annotations t sl st startP endP).reverse.find?
        (marqueeIsProf annotations) = some lp →
      marqueeSelect mode annotations t sl st startP endP prev = [lp]) ∧
    (∀ i, i ∈ marqueeSelect mode annotations t sl st startP endP prev →
      i ∈ marqueeInsideIds annotations t sl st startP endP ∨ i ∈ prev) := by
  refine ⟨?_, ?_, ?_, ?_⟩
  · intro h
    show (if 0 < (marqueeInsideIds annotations t sl st startP endP).length then _ else prev) = prev
    rw [if_neg (by rw [h]; simp)]
  · intro hne hcase
    have hpos : 0 < (marqueeInsideIds annotations t sl st startP endP).length :=
      List.length_pos.mpr hne
    show (if 0 < (marqueeInsideIds annotations t sl st startP endP).length then _ else prev) = _
    rw [if_pos hpos]
    rcases hcase with hmode | hany
    · rw [if_neg hmode]
    · by_cases hmode : mode = Mode.viewport
      · rw [if_pos hmode, if_neg (by simp [hany])]
      · rw [if_neg hmode]
  · intro lp hmode hfind
    have hlpmem : lp ∈ marqueeInsideIds annotations t sl st startP endP :=
      List.mem_reverse.mp (List.mem_of_find?_eq_some hfind)
    have hne : marqueeInsideIds annotations t sl st startP endP ≠ [] := by
      intro h0
      rw [h0] at hlpmem
      simp at hlpmem
    have hany : (marqueeInsideIds annotations t sl st startP endP).any
        (marqueeIsProf annotations) = true :=
      List.any_eq_true.mpr ⟨lp, hlpmem, List.find?_some hfind⟩
    show (if 0 < (marqueeInsideIds annotations t sl st startP endP).length then _ else prev) = _
    rw [if_pos (List.length_pos.mpr hne), if_pos hmode, if_pos hany, hfind]
  · intro i hi
    by_cases hpos : 0 < (marqueeInsideIds annotations t sl st startP endP).length
    · rw [show marqueeSelect mode annotations t sl st startP endP prev =
          (if mode = Mode.viewport then _ else marqueeInsideIds annotations t sl st startP endP)
          from if_pos hpos] at hi
      by_cases hmode : mode = Mode.viewport
      · rw [if_pos hmode] at hi
        by_cases hany : (marqueeInsideIds annotations t sl st startP endP).any
            (marqueeIsProf annotations) = true
        · rw [if_pos hany] at hi
          cases hfind : (marqueeInsideIds annotations t sl st startP endP).reverse.find?
              (marqueeIsProf annotations) with
          | none =>
            rw [hfind] at hi
            exact Or.inl hi
          | some lp =>
            rw [hfind] at hi
            have hilp : i = lp := by simpa using hi
            subst hilp
            exact Or.inl (List.mem_reverse.mp (List.mem_of_find?_eq_some hfind))
        · rw [if_neg hany] at hi
          exact Or.inl hi
      · rw [if_neg hmode] at hi
        exact Or.inl hi
    · rw [show marqueeSelect mode annotations t sl st startP endP prev = prev from if_neg hpos] at hi
      exact Or.inr hi

theorem marquee_all_inside_helper :
    marqueeInsideIds [c8A] ⟨1, 0, 0⟩ 0 0 ⟨-1, -1⟩ ⟨101, 101⟩ = ["A"] := by
  norm_num [marqueeInsideIds, imageToScreen, c8A, List.filter_cons, min_def, max_def]

theorem marquee_none_inside_helper :
    marqueeInsideIds [c8A] ⟨1, 0, 0⟩ 0 0 ⟨5, 5⟩ ⟨101, 101⟩ = [] := by
  norm_num [marqueeInsideIds, imageToScreen, c8A, List.filter_cons, min_def, max_def]

theorem marquee_spec_witness :
    marqueeInsideIds [c8A] ⟨1, 0, 0⟩ 0 0 ⟨-1, -1⟩ ⟨101, 101⟩ ≠ [] ∧
    marqueeSelect Mode.model [c8A] ⟨1, 0, 0⟩ 0 0 ⟨-1, -1⟩ ⟨101, 101⟩ ["prev"] = ["A"] :=
  ⟨by rw [marquee_all_inside_helper]; decide,
   ((marquee_spec Mode.model [c8A] ⟨1, 0, 0⟩ 0 0 ⟨-1, -1⟩ ⟨101, 101⟩ ["prev"]).2.1
      (by rw [marquee_all_inside_helper]; decide)
      (Or.inl (by decide))).trans marquee_all_inside_helper⟩

/-- C8 counterexample: the box `c8A` projects to [0,10]×[0,10]; the marquee
[5,101]×[5,101] overlaps it only partially, so the fully-inside set is
empty — yet after the drag the previously selected id "A" is still
selected, contradicting both "selects exactly the fully-contained set" and
"a partially intersecting annotation is never selected". -/
theorem marquee_cex :
    c8A.id = "A" ∧
    marqueeInsideIds [c8A] ⟨1, 0, 0⟩ 0 0 ⟨5, 5⟩ ⟨101, 101⟩ = [] ∧
    marqueeSelect Mode.model [c8A] ⟨1, 0, 0⟩ 0 0 ⟨5, 5⟩ ⟨101, 101⟩ ["A"] = ["A"] := by
  refine ⟨by decide, marquee_none_inside_helper, ?_⟩
  show (if 0 < (marqueeInsideIds [c8A] ⟨1, 0, 0⟩ 0 0 ⟨5, 5⟩ ⟨101, 101⟩).length then _
    else ["A"]) = ["A"]
  rw [if_neg (by rw [marquee_none_inside_helper]; simp)]

theorem csvGo_positive (now : Nat) (idGen : Nat → String) (category : Cat)
    (imageId : String) (meta : Option AssetMeta) (rows : List CsvRow) :
    ∀ index profileSeq colorIdx,
      ∀ a ∈ convertBBGo now idGen category imageId meta rows index profileSeq colorIdx,
        0 < a.w ∧ 0 < a.h := by
  induction rows with
  | nil =>
    intro index ps ci a ha
    simp [convertBBGo] at ha
  | cons row rest ih =>
    intro index ps ci a ha
    simp only [convertBBGo] at ha
    cases hxm : ((row.x_min.orElse fun _ => row.xMin).orElse fun _ => row.left).orElse
        fun _ => row.x1 with
    | none =>
      simp only [hxm] at ha
      exact ih _ _ _ a ha
    | some xm =>
      cases hym : ((row.y_min.orElse fun _ => row.yMin).orElse fun _ => row.top).orElse
          fun _ => row.y1 with
      | none =>
        simp only [hxm, hym] at ha
        exact ih _ _ _ a ha
      | some ym =>
        cases hxM : ((row.x_max.orElse fun _ => row.xMax).orElse fun _ => row.right).orElse
            fun _ => row.x2 with
        | none =>
          simp only [hxm, hym, hxM] at ha
          exact ih _ _ _ a ha
        | some xM =>
          cases hyM : ((row.y_max.orElse fun _ => row.yMax).orElse fun _ => row.bottom).orElse
              fun _ => row.y2 with
          | none =>
            simp only [hxm, hym, hxM, hyM] at ha
            exact ih _ _ _ a ha
          | some yM =>
            simp only [hxm, hym, hxM, hyM] at ha
            by_cases hskip : (xM - xm) ≤ 0 ∨ (yM - ym) ≤ 0
            · rw [if_pos hskip] at ha
              exact ih _ _ _ a ha
            · rw [if_neg hskip] at ha
              push_neg at hskip
              rw [List.mem_cons] at ha
              rcases ha with rfl | ha
              · exact ⟨hskip.1, hskip.2⟩
              · exact ih _ _ _ a ha

/-- C9 (amended): only the bulk CSV geometry conversion enforces the
invariant — every annotation it emits has strictly positive width and
height, rows with missing coordinates or non-positive derived size being
dropped.  (The local add, import and remote-ingestion boundaries perform no
geometry validation; see the counterexample.) -/
theorem csv_geometry_positive (now : Nat) (idGen : Nat → String) (category : Cat)
    (imageId : String) (meta : Option AssetMeta) (colorIdx : Nat) (rows : List CsvRow) :
    ∀ a ∈ convertBoundingBoxRows now idGen category imageId meta colorIdx rows,
      0 < a.w ∧ 0 < a.h := by
  intro a ha
  exact csvGo_positive now idGen category imageId meta rows 0 0 colorIdx a ha

theorem csv_out_helper :
    convertBoundingBoxRows 0 (fun _ => "gen") Cat.profile "img" none 0 [c9row] = [c9out] := by
  norm_num +decide [convertBoundingBoxRows, convertBBGo, c9row, c9out, resolveProfileLabel,
    resolveCategoryColor, PROFILE_LABEL_CONFIG, List.find?]

theorem csv_geometry_positive_witness :
    c9out ∈ convertBoundingBoxRows 0 (fun _ => "gen") Cat.profile "img" none 0 [c9row] ∧
    0 < c9out.w ∧ 0 < c9out.h :=
  ⟨by rw [csv_out_helper]; exact List.mem_singleton.mpr rfl,
   csv_geometry_positive 0 (fun _ => "gen") Cat.profile "img" none 0 [c9row] c9out
     (by rw [csv_out_helper]; exact List.mem_singleton.mpr rfl)⟩

/-- C9 counterexample: `addAnnotation` happily stores an annotated box with
width −5 — malformed geometry is *not* rejected at the local add boundary,
so the claimed store-wide invariant fails. -/
theorem add_no_geometry_validation_cex :
    c9bad.w = -5 ∧
    (addAnnot 0 "fresh" c9bad c9s0).annotations.any (fun a => decide (a.w < 0)) = true := by
  decide

/-- C10: an inbound message whose embedded user id equals the (truthy)
locally decoded user id is dropped by `handleMessage` before any handler
runs, leaving the Collaboration State unchanged — and independently, the
store-level `updateCursor` guard drops a cursor update for the local user
id even if a message slipped past the client guard. -/
theorem self_echo_suppressed (now : Nat) (l : String) (nm : Option String) (st : CollabState)
    (msg : RtMessage) (hl : l ≠ "") (hu : msg.user = some ⟨l, nm⟩) :
    applyInboundToCollab now (some l) st msg = st ∧
    (∀ st' : CollabState, st'.localUserId = some l → ∀ cur : RemoteCursor,
      updateCursor now st' l cur = st') := by
  constructor
  · have hcond : selfEcho (some l) msg.user = true := by
      rw [hu]
      simp [selfEcho, hl]
    rw [applyInboundToCollab, if_pos hcond]
  · intro st' hst cur
    have hloc : localMatches st' l = true := by
      rw [localMatches, hst]
      simp [hl]
    rw [updateCursor, if_pos hloc]

theorem jsGet_set_self {α : Type} (m : List (String × α)) (k : String) (v : α) :
    jsGet (jsSet m k v) k = some v := by
  induction m with
  | nil => simp [jsSet, jsGet]
  | cons p rest ih =>
    obtain ⟨k', v'⟩ := p
    by_cases h : k' = k
    · simp [jsSet, jsGet, h]
    · simp [jsSet, jsGet, h, ih]

theorem jsGet_set_ne {α : Type} (m : List (String × α)) (k k' : String) (v : α)
    (h : k' ≠ k) : jsGet (jsSet m k v) k' = jsGet m k' := by
  induction m with
  | nil => simp [jsSet, jsGet, Ne.symm h]
  | cons p rest ih =>
    obtain ⟨k0, v0⟩ := p
    by_cases h0 : k0 = k
    · subst h0
      simp [jsSet, jsGet, Ne.symm h, h]
    · by_cases h1 : k0 = k'
      · simp [jsSet, jsGet, h0, h1, h]
      · simp [jsSet, jsGet, h0, h1, ih]

theorem mem_jsValues_set {α : Type} (m : List (String × α)) (k : String) (v w : α) :
    w ∈ jsValues (jsSet m k v) → w = v ∨ w ∈ jsValues m := by
  induction m with
  | nil =>
    intro h
    simp [jsSet, jsValues] at h
    exact Or.inl h
  | cons p rest ih =>
    obtain ⟨k0, v0⟩ := p
    intro h
    by_cases h0 : k0 = k
    · simp only [jsSet, if_pos h0, jsValues, List.map_cons, List.mem_cons] at h
      rcases h with h | h
      · exact Or.inl h
      · exact Or.inr (by simp [jsValues, h])
    · simp only [jsSet, if_neg h0, jsValues, List.map_cons, List.mem_cons] at h
      rcases h with h | h
      · exact Or.inr (by simp [jsValues, h])
      · rcases ih h with h | h
        · exact Or.inl h
        · exact Or.inr (by simp [jsValues] at h ⊢; exact Or.inr h)

theorem jsGet_mem_jsValues {α : Type} (m : List (String × α)) (k : String) (v : α) :
    jsGet m k = some v → v ∈ jsValues m := by
  induction m with
  | nil => intro h; simp [jsGet] at h
  | cons p rest ih =>
    obtain ⟨k0, v0⟩ := p
    intro h
    by_cases h0 : k0 = k
    · rw [jsGet, if_pos h0] at h
      simp [jsValues, Option.some.inj h]
    · rw [jsGet, if_neg h0] at h
      simp only [jsValues, List.map_cons, List.mem_cons]
      exact Or.inr (ih h)

theorem lastWith_none_not_mem (cs : List Annot) (k : String) (h : lastWith cs k = none) :
    ∀ x ∈ cs, x.id ≠ k := by
  induction cs with
  | nil => intro x hx; simp at hx
  | cons c cs ih =>
    intro x hx
    rw [lastWith] at h
    cases hl : lastWith cs k with
    | some a => rw [hl] at h; exact absurd h (by simp)
    | none =>
      rw [hl] at h
      rcases List.mem_cons.mp hx with rfl | hx'
      · intro he
        rw [if_pos he] at h
        exact absurd h (by simp)
      · exact ih hl x hx'

theorem insertAll_get_of_not_mem (anns : List Annot) :
    ∀ (m : List (String × Annot)) (k : String), (∀ a ∈ anns, a.id ≠ k) →
      jsGet (insertAll m anns) k = jsGet m k := by
  induction anns with
  | nil => intro m k _; rfl
  | cons c cs ih =>
    intro m k h
    show jsGet (insertAll (jsSet m c.id c) cs) k = jsGet m k
    rw [ih _ k (fun a ha => h a (List.mem_cons_of_mem _ ha))]
    exact jsGet_set_ne m c.id k c (Ne.symm (h c (List.mem_cons_self _ _)))

theorem insertAll_get_last (anns : List Annot) :
    ∀ (m : List (String × Annot)) (k : String) (a : Annot), lastWith anns k = some a →
      jsGet (insertAll m anns) k = some a := by
  induction anns with
  | nil => intro m k a h; simp [lastWith] at h
  | cons c cs ih =>
    intro m k a h
    rw [lastWith] at h
    cases hl : lastWith cs k with
    | some b =>
      rw [hl] at h
      exact ih _ k a (hl.trans (by rw [Option.some.inj h]))
    | none =>
      rw [hl] at h
      by_cases hck : c.id = k
      · rw [if_pos hck] at h
        show jsGet (insertAll (jsSet m c.id c) cs) k = some a
        rw [insertAll_get_of_not_mem cs _ k (lastWith_none_not_mem cs k hl), ← hck,
          jsGet_set_self, Option.some.inj h]
      · rw [if_neg hck] at h
        exact absurd h (by simp)

theorem jsValues_insertAll_sub (anns : List Annot) :
    ∀ (m : List (String × Annot)) (v : Annot), v ∈ jsValues (insertAll m anns) →
      v ∈ jsValues m ∨ v ∈ anns := by
  induction anns with
  | nil => intro m v h; exact Or.inl h
  | cons c cs ih =>
    intro m v h
    rcases ih _ v h with h1 | h2
    · rcases mem_jsValues_set m c.id c v h1 with rfl | h0
      · exact Or.inr (List.mem_cons_self _ _)
      · exact Or.inl h0
    · exact Or.inr (List.mem_cons_of_mem _ h2)

theorem insertAll_get_nodup (anns : List Annot) :
    ∀ (m : List (String × Annot)) (a : Annot), (anns.map (fun x => x.id)).Nodup →
      a ∈ anns → jsGet (insertAll m anns) a.id = some a := by
  induction anns with
  | nil => intro m a _ ha; simp at ha
  | cons c cs ih =>
    intro m a hnd ha
    rw [List.map_cons, List.nodup_cons] at hnd
    rcases List.mem_cons.mp ha with rfl | ha'
    · have hno : ∀ x ∈ cs, x.id ≠ a.id := by
        intro x hx he
        exact hnd.1 (he ▸ List.mem_map_of_mem _ hx)
      show jsGet (insertAll (jsSet m a.id a) cs) a.id = some a
      rw [insertAll_get_of_not_mem cs _ a.id hno, jsGet_set_self]
    · exact ih _ a hnd.2 ha'

/-- C2 (amended): when the viewport id is truthy and the supplied list is
nonempty, `ingestAnnotationList(V, items)`: (i) keeps of the pending set
exactly the annotations with `parentId ≠ V`; (ii) keeps unchanged every
active annotation that is profile-labeled or not parented to V, provided no
converted item re-uses its id; (iii) removes every active non-profile
annotation parented to V whose id is not re-used; (iv) for every id among
the converted items, the *last* converted item with that id ends up active
(last-one-wins dedup); (v) every resulting active annotation stems from the
previous active set or from the converted items. -/
theorem ingest_spec (now : Nat) (freshIds : Nat → String) (colorIdx : Nat) (s : StoreState)
    (V : String) (remotes : List RemotePayload)
    (hV : V ≠ "") (hr : remotes ≠ [])
    (hnd : (s.annotations.map (fun a => a.id)).Nodup) :
    (ingestAnnotList now freshIds colorIdx s V remotes).pendingAnnotations
      = s.pendingAnnotations.filter (fun a => ¬(a.parentId = some V)) ∧
    (∀ a ∈ s.annotations, (isProfileAnnot a = true ∨ a.parentId ≠ some V) →
      (∀ c ∈ convertRemoteList now freshIds V remotes 0 colorIdx, c.id ≠ a.id) →
      a ∈ (ingestAnnotList now freshIds colorIdx s V remotes).annotations) ∧
    (∀ a ∈ s.annotations, isProfileAnnot a = false → a.parentId = some V →
      (∀ c ∈ convertRemoteList now freshIds V remotes 0 colorIdx, c.id ≠ a.id) →
      a ∉ (ingestAnnotList now freshIds colorIdx s V remotes).annotations) ∧
    (∀ k a, lastWith (convertRemoteList now freshIds V remotes 0 colorIdx) k = some a →
      a ∈ (ingestAnnotList now freshIds colorIdx s V remotes).annotations) ∧
    (∀ a ∈ (ingestAnnotList now freshIds colorIdx s V remotes).annotations,
      a ∈ s.annotations ∨ a ∈ convertRemoteList now freshIds V remotes 0 colorIdx) := by
  obtain ⟨r, rest, rfl⟩ : ∃ r rest, remotes = r :: rest := by
    cases remotes with
    | nil => exact absurd rfl hr
    | cons r rest => exact ⟨r, rest, rfl⟩
  have hcne : convertRemoteList now freshIds V (r :: rest) 0 colorIdx ≠ [] := by
    simp [convertRemoteList]
  have hout : ingestAnnotList now freshIds colorIdx s V (r :: rest) =
      { s with
        annotations := jsValues (insertAll (insertAll []
          (s.annotations.filter (fun ann =>
            isProfileAnnot ann || ann.parentId = none || ¬(ann.parentId = some V))))
          (convertRemoteList now freshIds V (r :: rest) 0 colorIdx)),
        pendingAnnotations := s.pendingAnnotations.filter
          (fun ann => ¬(ann.parentId = some V)) } := by
    simp only [ingestAnnotList]
    rw [if_neg (by push_neg; exact ⟨hV, hr⟩), if_neg hcne]
  have hndp : ((s.annotations.filter (fun ann =>
      isProfileAnnot ann || ann.parentId = none || ¬(ann.parentId = some V))).map
      (fun a => a.id)).Nodup :=
    List.Nodup.sublist (List.Sublist.map _ (List.filter_sublist _)) hnd
  refine ⟨?_, ?_, ?_, ?_, ?_⟩
  · rw [hout]
  · intro a ha hkeep hfresh
    rw [hout]
    have hpres : a ∈ s.annotations.filter (fun ann =>
        isProfileAnnot ann || ann.parentId = none || ¬(ann.parentId = some V)) :=
      List.mem_filter.mpr ⟨ha, by rcases hkeep with h | h <;> simp [h]⟩
    refine jsGet_mem_jsValues _ a.id a ?_
    rw [insertAll_get_of_not_mem _ _ a.id hfresh]
    exact insertAll_get_nodup _ _ a hndp hpres
  · intro a ha hprof hpar hfresh hmem
    rw [hout] at hmem
    rcases jsValues_insertAll_sub _ _ a hmem with h1 | h2
    · rcases jsValues_insertAll_sub _ _ a h1 with h0 | hpres
      · simp [jsValues] at h0
      · have hp := (List.mem_filter.mp hpres).2
        rw [hprof, hpar] at hp
        simp at hp
    · exact hfresh a h2 rfl
  · intro k a h
    rw [hout]
    exact jsGet_mem_jsValues _ k a (insertAll_get_last _ _ k a h)
  · intro a ha
    rw [hout] at ha
    rcases jsValues_insertAll_sub _ _ a ha with h1 | h2
    · rcases jsValues_insertAll_sub _ _ a h1 with h0 | hpres
      · simp [jsValues] at h0
      · exact Or.inl (List.mem_filter.mp hpres).1
    · exact Or.inr h2

theorem ingest_spec_witness :
    (("V" : String) ≠ "" ∧ ([c2r1] : List RemotePayload) ≠ []) ∧
    c2a1 ∈ (ingestAnnotList 0 (fun _ => "g") 0 c2s0 "V" [c2r1]).annotations :=
  ⟨⟨by decide, by decide⟩,
   (ingest_spec 0 (fun _ => "g") 0 c2s0 "V" [c2r1] (by decide) (by decide)
     (by decide)).2.2.2.1 c2a1.id c2a1 (by decide)⟩

/-- C2 counterexample: the profile-labeled annotation `c2prof` has
`parentId = "V"`, yet `ingestAnnotationList("V", [c2r1])` keeps it in the
active set (it is not among the converted supplied items), so the
annotations parented to V are *not* fully replaced by exactly the supplied
items. -/
theorem ingest_cex :
    c2prof.parentId = some "V" ∧
    c2prof ∈ (ingestAnnotList 0 (fun _ => "g") 0 c2s1 "V" [c2r1]).annotations ∧
    c2prof ∉ convertRemoteList 0 (fun _ => "g") "V" [c2r1] 0 0 := by
  decide

theorem self_echo_suppressed_witness :
    ("u1" : String) ≠ "" ∧
    applyInboundToCollab 7 (some "u1") ⟨[], some "u1", 0⟩
      ⟨RtEvent.cursorUpdate, some ⟨"u1", none⟩, some ⟨some 1, some 2, none⟩, none⟩ =
      ⟨[], some "u1", 0⟩ :=
  ⟨by decide,
   (self_echo_suppressed 7 "u1" none ⟨[], some "u1", 0⟩
     ⟨RtEvent.cursorUpdate, some ⟨"u1", none⟩, some ⟨some 1, some 2, none⟩, none⟩
     (by decide) rfl).1⟩

end Inkwell
